import Mathlib

/-!
# tcpkali: the address list of `src/tcpkali_iface.c`

A shallow embedding of `address_add`, `fprint_addresses`, `format_sockaddr`,
`detect_listen_addresses`, `check_if_bindable_ip` and `add_source_ip`, followed by the
properties proved about them.

Conventions of the embedding:

* a socket address is its family tag and the bytes that follow the tag in memory;
* the C library and the kernel are the fields of `Env`, the state they act on is `World`;
* a call either returns or stops the process: `Outcome`;
* a C string is a `String`, a stream is named by its `FILE` number.
-/

namespace Tcpkali

/-! ## Constants of the system headers (the values of Linux) -/

def AF_UNSPEC : Nat := 0
def AF_INET : Nat := 2
def AF_INET6 : Nat := 10
def SOCK_STREAM : Nat := 1
def IPPROTO_TCP : Nat := 6
def AI_PASSIVE : Nat := 0x0001
def AI_ADDRCONFIG : Nat := 0x0020
def AI_NUMERICSERV : Nat := 0x0400
def INET6_ADDRSTRLEN : Nat := 46
def EXIT_FAILURE : Int := 1
def EBADF : Nat := 9

/-! ## Socket addresses -/

/-- The memory behind a `struct sockaddr *` (and a `struct sockaddr_storage` slot): the
family field, then the bytes that follow it, first byte first. Of a slot, `sa_data` holds
the bytes the last store wrote; what lies behind them in the 128-byte slot is indeterminate
and is not represented. -/
structure sockaddr where
  sa_family : Nat
  sa_data : List Nat
deriving DecidableEq

abbrev sockaddr_storage := sockaddr

/-- The field `sin_port` of the `struct sockaddr_in` view: two bytes right after the family. -/
def sin_port (sa : sockaddr) : List Nat := sa.sa_data.take 2

/-- The field `sin_addr` of the `struct sockaddr_in` view: four bytes after the port. -/
def sin_addr (sa : sockaddr) : List Nat := (sa.sa_data.drop 2).take 4

/-- The field `sin6_port` of the `struct sockaddr_in6` view: two bytes right after the family. -/
def sin6_port (sa : sockaddr) : List Nat := sa.sa_data.take 2

/-- The field `sin6_addr` of the `struct sockaddr_in6` view: sixteen bytes after the port and
the four bytes of `sin6_flowinfo`. -/
def sin6_addr (sa : sockaddr) : List Nat := (sa.sa_data.drop 6).take 16

/-- The value of `*(struct sockaddr_in *)sa`: the 16 bytes of a `struct sockaddr_in`, two of
them the family. -/
def as_sockaddr_in (sa : sockaddr) : sockaddr_storage :=
  { sa_family := sa.sa_family, sa_data := sa.sa_data.take 14 }

/-- The value of `*(struct sockaddr_in6 *)sa`: the 28 bytes of a `struct sockaddr_in6`, two of
them the family. -/
def as_sockaddr_in6 (sa : sockaddr) : sockaddr_storage :=
  { sa_family := sa.sa_family, sa_data := sa.sa_data.take 26 }

/-- A `uint16_t` read from two bytes of memory, in the byte order of the host. -/
def load_u16 (little_endian : Bool) (bytes : List Nat) : Nat :=
  let b0 := bytes.getD 0 0 % 256
  let b1 := bytes.getD 1 0 % 256
  if little_endian then b0 + 256 * b1 else 256 * b0 + b1

/-- The C library's `ntohs`: swaps the two bytes on a little-endian host. -/
def ntohs (little_endian : Bool) (x : Nat) : Nat :=
  if little_endian then (x % 256) * 256 + (x / 256) % 256 else x % 65536

/-! ## Outcomes of a call -/

/-- How a call ends: it returns a value, `assert` fails and aborts the process, `exit` ends
the process, or it reads a slot that does not exist. Of a process that stops, the world it
leaves behind is not kept. -/
inductive Outcome (α : Type) where
  | returned (a : α)
  | aborted
  | exited (status : Int)
  | undefined
deriving DecidableEq

/-- Sequencing: the rest runs only after a return. -/
def Outcome.bind {α β : Type} : Outcome α → (α → Outcome β) → Outcome β
  | .returned a, f => f a
  | .aborted, _ => .aborted
  | .exited s, _ => .exited s
  | .undefined, _ => .undefined

instance : Monad Outcome where
  pure := Outcome.returned
  bind := Outcome.bind

/-! ## The world outside the program -/

abbrev FILE := Nat

def stdout : FILE := 1
def stderr : FILE := 2

/-- The hints handed to `getaddrinfo`. -/
structure addrinfo where
  ai_family : Nat
  ai_socktype : Nat
  ai_protocol : Nat
  ai_flags : Nat
deriving DecidableEq

/-- The build, the C library and the kernel, as far as this file calls them. An answer
depends on nothing but the arguments shown. -/
structure Env where
  /-- `NDEBUG` is defined: `assert` expands to nothing. -/
  ndebug : Bool
  /-- Byte order of the host. -/
  little_endian : Bool
  /-- Whether `realloc` of the given block to the given number of slots returns a null
  pointer, there being no memory for the new block. -/
  realloc_null : List sockaddr → Nat → Bool
  /-- The helper `sockaddr_len` of the project header, which is not among the sources. -/
  sockaddr_len : sockaddr_storage → Nat
  /-- The text `inet_ntop` writes for an address family and the bytes of an address; with a
  buffer of `INET6_ADDRSTRLEN` bytes it does not fail for IPv4 and IPv6. -/
  inet_ntop : Nat → List Nat → String
  /-- The status `getaddrinfo` returns for a node, a service and hints, and the `ai_addr` of
  every record of its result list, in list order. -/
  getaddrinfo : Option String → Option String → addrinfo → Int × List sockaddr
  gai_strerror : Int → String
  /-- The kernel's answer to `socket(family, SOCK_STREAM, IPPROTO_TCP)` when the given
  descriptors are open: the new descriptor, or the negated error number. -/
  socket : List Nat → Nat → Int
  /-- The kernel's answer to a `bind` of a stream socket to the address of the given length:
  0, or the negated error number. -/
  bind : sockaddr_storage → Nat → Int
  strerror : Nat → String

/-- What the calls act on: the open descriptors of the process, `errno`, what was written
to each stream (oldest first) and the addresses `bind` was called with (oldest first). -/
structure World where
  open_fds : List Nat
  errno : Nat
  streams : List (FILE × String)
  binds : List sockaddr_storage
deriving DecidableEq

/-- A call `fprintf(fp, "%s", text)`, or one whose format expands to `text`. -/
def fprintf (w : World) (fp : FILE) (text : String) : World :=
  { w with streams := w.streams ++ [(fp, text)] }

/-- Everything written to the stream `fp`, in order. -/
def written (w : World) (fp : FILE) : String :=
  String.join ((w.streams.filter (fun e => e.1 = fp)).map Prod.snd)

/-- A call `snprintf(buf, size, ...)` whose format expands to `text`: at most `size - 1`
characters reach the buffer. -/
def snprintf (size : Nat) (text : String) : String :=
  String.mk (text.data.take (size - 1))

/-- The library call `socket`: the descriptor, which is now open, or -1 with `errno` set. -/
def sys_socket (env : Env) (w : World) (family : Nat) : Int × World :=
  let r := env.socket w.open_fds family
  if 0 ≤ r then (r, { w with open_fds := r.toNat :: w.open_fds })
  else (-1, { w with errno := (-r).toNat })

/-- The library call `bind`: 0, or -1 with `errno` set. -/
def sys_bind (env : Env) (w : World) (fd : Int) (ss : sockaddr_storage) (len : Nat) :
    Int × World :=
  let w1 := { w with binds := w.binds ++ [ss] }
  if 0 ≤ fd ∧ fd.toNat ∈ w.open_fds then
    let r := env.bind ss len
    if r = 0 then (0, w1) else (-1, { w1 with errno := (-r).toNat })
  else (-1, { w1 with errno := EBADF })

/-- The library call `close`. -/
def sys_close (w : World) (fd : Int) : Int × World :=
  if 0 ≤ fd ∧ fd.toNat ∈ w.open_fds then
    (0, { w with open_fds := w.open_fds.erase fd.toNat })
  else (-1, { w with errno := EBADF })

/-- The macro `assert(cond)`. -/
def c_assert (env : Env) (cond : Bool) : Outcome Unit :=
  if env.ndebug || cond then .returned () else .aborted

/-! ## The address list -/

/-- The `struct addresses` of the project header: the block `addrs` points to, slot by slot,
and the count. The elements of the list are the first `n_addrs` slots. -/
structure addresses where
  addrs : List sockaddr_storage
  n_addrs : Nat
deriving DecidableEq

/-- A slot that was allocated and never written. -/
def uninitialised : sockaddr_storage := { sa_family := AF_UNSPEC, sa_data := [] }

/-- The block a successful `realloc` to `k` slots gives: the slots keep the content they
had, a slot that is new was never written. -/
def grown (addrs : List sockaddr_storage) (k : Nat) : List sockaddr_storage :=
  addrs.take k ++ List.replicate (k - addrs.length) uninitialised

/-- The call `realloc(addrs, k * sizeof(addrs[0]))`: the new block, or `none` for the null
pointer. -/
def realloc (env : Env) (addrs : List sockaddr_storage) (k : Nat) :
    Option (List sockaddr_storage) :=
  if env.realloc_null addrs k then none else some (grown addrs k)

/-- The slot `addrs[i]`. -/
def slot (addrs : List sockaddr_storage) (i : Nat) : Outcome sockaddr_storage :=
  match addrs[i]? with
  | some ss => .returned ss
  | none => .undefined

/-- The store `addrs[i] = x` through the pointer `realloc` returned: the block after it.
Behind a null pointer there is no slot. -/
def store (addrs : Option (List sockaddr_storage)) (i : Nat) (x : sockaddr_storage) :
    Outcome (List sockaddr_storage) :=
  match addrs with
  | some block => .returned (block.set i x)
  | none => .undefined

/-- The function `address_add`. A null `addrs` is the block of no slots. -/
def address_add (env : Env) (aseq : addresses) (sa : sockaddr) : Outcome addresses := do
  let addrs := realloc env aseq.addrs (aseq.n_addrs + 1)
  c_assert env addrs.isSome
  if sa.sa_family = AF_INET then
    let block ← store addrs aseq.n_addrs (as_sockaddr_in sa)
    pure { addrs := block, n_addrs := aseq.n_addrs + 1 }
  else if sa.sa_family = AF_INET6 then
    let block ← store addrs aseq.n_addrs (as_sockaddr_in6 sa)
    pure { addrs := block, n_addrs := aseq.n_addrs + 1 }
  else do
    c_assert env false
    pure { addrs := addrs.getD [], n_addrs := aseq.n_addrs }

/-- Calls of `address_add`, one per address, in list order. -/
def address_add_each (env : Env) : addresses → List sockaddr → Outcome addresses
  | aseq, [] => .returned aseq
  | aseq, sa :: rest => do
      let aseq1 ← address_add env aseq sa
      address_add_each env aseq1 rest

/-! ## Formatting -/

/-- The function `format_sockaddr`; the result is the string it returns. -/
def format_sockaddr (env : Env) (ss : sockaddr_storage) (size : Nat) : Outcome String :=
  if ss.sa_family = AF_INET then
    let ip := env.inet_ntop ss.sa_family (sin_addr ss)
    let nport := load_u16 env.little_endian (sin_port ss)
    .returned (snprintf size ("[" ++ ip ++ "]:" ++ toString (ntohs env.little_endian nport)))
  else if ss.sa_family = AF_INET6 then
    let ip := env.inet_ntop ss.sa_family (sin6_addr ss)
    let nport := load_u16 env.little_endian (sin6_port ss)
    .returned (snprintf size ("[" ++ ip ++ "]:" ++ toString (ntohs env.little_endian nport)))
  else do
    c_assert env false
    pure "<unknown>"

/-- The loop of `fprint_addresses` from index `n` on, with `todo` elements still to print. -/
def fprint_addresses_from (env : Env) (fp : FILE) (pfx separator suffix : String)
    (a : addresses) : Nat → Nat → World → Outcome World
  | _, 0, w => .returned w
  | n, todo + 1, w => do
      let w1 := if n = 0 then fprintf w fp pfx else fprintf w fp separator
      let ss ← slot a.addrs n
      let text ← format_sockaddr env ss (INET6_ADDRSTRLEN + 64)
      let w2 := fprintf w1 stderr text
      let w3 := if n = a.n_addrs - 1 then fprintf w2 fp suffix else w2
      fprint_addresses_from env fp pfx separator suffix a (n + 1) todo w3

/-- The function `fprint_addresses`. -/
def fprint_addresses (env : Env) (fp : FILE) (pfx separator suffix : String)
    (a : addresses) (w : World) : Outcome World :=
  fprint_addresses_from env fp pfx separator suffix a 0 a.n_addrs w

/-! ## Resolution -/

/-- The hints of `detect_listen_addresses`. -/
def listen_hints : addrinfo :=
  { ai_family := AF_UNSPEC, ai_socktype := SOCK_STREAM, ai_protocol := IPPROTO_TCP,
    ai_flags := AI_PASSIVE ||| AI_NUMERICSERV ||| AI_ADDRCONFIG }

/-- The hints of `add_source_ip`. -/
def source_hints : addrinfo :=
  { ai_family := AF_UNSPEC, ai_socktype := SOCK_STREAM, ai_protocol := IPPROTO_TCP,
    ai_flags := AI_PASSIVE ||| AI_ADDRCONFIG }

/-- The function `detect_listen_addresses`. -/
def detect_listen_addresses (env : Env) (listen_port : Int) (w : World) :
    Outcome (addresses × World) :=
  let service := snprintf 32 (toString listen_port)
  let res := env.getaddrinfo none (some service) listen_hints
  if res.1 ≠ 0 then
    let _w1 := fprintf w stderr ("getaddrinfo: " ++ env.gai_strerror res.1 ++ "\n")
    .exited EXIT_FAILURE
  else do
    let a ← address_add_each env { addrs := [], n_addrs := 0 } res.2
    let w1 ← fprint_addresses env stderr "Listen on: " "\nListen on: " "\n" a w
    pure (a, w1)

/-- The function `check_if_bindable_ip`. -/
def check_if_bindable_ip (env : Env) (ss : sockaddr_storage) (w : World) :
    Outcome (Int × World) := do
  let opened := sys_socket env w ss.sa_family
  let lsock := opened.1
  c_assert env (decide (lsock ≠ -1))
  let bound := sys_bind env opened.2 lsock ss (env.sockaddr_len ss)
  let rc := bound.1
  let closed := sys_close bound.2 lsock
  if rc = -1 then
    let text ← format_sockaddr env ss 256
    pure (-1, fprintf closed.2 stderr
      (text ++ " is not local: " ++ env.strerror closed.2.errno ++ "\n"))
  else
    pure (0, closed.2)

/-- The loop of `add_source_ip` over the records that are left. The probe is given the slot
`addrs[n_addrs - 1]`; in `size_t` the index wraps to `SIZE_MAX` when `n_addrs` is 0, and
there is no such slot. -/
def add_source_ip_loop (env : Env) :
    List sockaddr → addresses → World → Outcome (Int × addresses × World)
  | [], a, w => .returned (0, a, w)
  | sa :: rest, a, w => do
      let a1 ← address_add env a sa
      let ss ← if a1.n_addrs = 0 then Outcome.undefined else slot a1.addrs (a1.n_addrs - 1)
      let p ← check_if_bindable_ip env ss w
      if p.1 < 0 then pure (-1, a1, p.2)
      else add_source_ip_loop env rest a1 p.2

/-- The function `add_source_ip`: the value returned, the list and the world it leaves. -/
def add_source_ip (env : Env) (a : addresses) (optarg : String) (w : World) :
    Outcome (Int × addresses × World) :=
  let res := env.getaddrinfo (some optarg) none source_hints
  if res.1 ≠ 0 then
    .returned (-1, a, fprintf w stderr ("getaddrinfo: " ++ env.gai_strerror res.1 ++ "\n"))
  else add_source_ip_loop env res.2 a w

/-! ## Vocabulary of the properties -/

/-- The family is IPv4 or IPv6. -/
def inet_family (sa : sockaddr) : Prop :=
  sa.sa_family = AF_INET ∨ sa.sa_family = AF_INET6

instance (sa : sockaddr) : Decidable (inet_family sa) :=
  inferInstanceAs (Decidable (sa.sa_family = AF_INET ∨ sa.sa_family = AF_INET6))

/-- A socket address as the resolver hands it out: a whole `struct sockaddr_in` (16 bytes)
for IPv4, a whole `struct sockaddr_in6` (28 bytes) for IPv6, two of the bytes being the
family. -/
def inet_record (sa : sockaddr) : Prop :=
  (sa.sa_family = AF_INET ∧ sa.sa_data.length = 14) ∨
  (sa.sa_family = AF_INET6 ∧ sa.sa_data.length = 26)

instance (sa : sockaddr) : Decidable (inet_record sa) :=
  inferInstanceAs (Decidable ((sa.sa_family = AF_INET ∧ sa.sa_data.length = 14) ∨
    (sa.sa_family = AF_INET6 ∧ sa.sa_data.length = 26)))

/-- Same family, same port and same address bytes. -/
def same_address (x y : sockaddr) : Prop :=
  x.sa_family = y.sa_family ∧
  (y.sa_family = AF_INET → sin_port x = sin_port y ∧ sin_addr x = sin_addr y) ∧
  (y.sa_family = AF_INET6 → sin6_port x = sin6_port y ∧ sin6_addr x = sin6_addr y)

instance (x y : sockaddr) : Decidable (same_address x y) :=
  inferInstanceAs (Decidable (x.sa_family = y.sa_family ∧
    (y.sa_family = AF_INET → sin_port x = sin_port y ∧ sin_addr x = sin_addr y) ∧
    (y.sa_family = AF_INET6 → sin6_port x = sin6_port y ∧ sin6_addr x = sin6_addr y)))

/-- What `address_add` writes into the slot for an address of family IPv4 or IPv6. -/
def stored (sa : sockaddr) : sockaddr_storage :=
  if sa.sa_family = AF_INET then as_sockaddr_in sa else as_sockaddr_in6 sa

/-- The elements of the list: the first `n_addrs` slots. -/
def elements (a : addresses) : List sockaddr_storage := a.addrs.take a.n_addrs

/-- The block holds the `n_addrs` slots the count promises. -/
def well_formed (a : addresses) : Prop := a.n_addrs ≤ a.addrs.length

instance (a : addresses) : Decidable (well_formed a) :=
  inferInstanceAs (Decidable (a.n_addrs ≤ a.addrs.length))

/-- There is memory for the blocks: every `realloc` to more than `lo` and at most `hi`
slots returns a block. -/
def allocates (env : Env) (lo hi : Nat) : Prop :=
  ∀ (l : List sockaddr_storage) (k : Nat), lo < k → k ≤ hi → env.realloc_null l k = false

/-- Every element of the list has family IPv4 or IPv6. -/
def all_inet (a : addresses) : Prop :=
  well_formed a ∧ ∀ ss ∈ elements a, inet_family ss

instance (a : addresses) : Decidable (all_inet a) :=
  inferInstanceAs (Decidable (well_formed a ∧ ∀ ss ∈ elements a, inet_family ss))

/-- The address bytes `format_sockaddr` hands to `inet_ntop`. -/
def in_addr (ss : sockaddr_storage) : List Nat :=
  if ss.sa_family = AF_INET then sin_addr ss else sin6_addr ss

/-- The stored port in host order: its two bytes, most significant first. -/
def host_port (ss : sockaddr_storage) : Nat :=
  256 * ((sin_port ss).getD 0 0 % 256) + (sin_port ss).getD 1 0 % 256

/-- The kernel lets a stream socket bind to the address. -/
def bind_succeeds (env : Env) (ss : sockaddr_storage) : Prop :=
  env.bind ss (env.sockaddr_len ss) = 0

instance (env : Env) (ss : sockaddr_storage) : Decidable (bind_succeeds env ss) :=
  inferInstanceAs (Decidable (env.bind ss (env.sockaddr_len ss) = 0))

/-- The kernel hands out a descriptor for a stream socket of the family. -/
def socket_available (env : Env) (w : World) (family : Nat) : Prop :=
  0 ≤ env.socket w.open_fds family

instance (env : Env) (w : World) (family : Nat) :
    Decidable (socket_available env w family) :=
  inferInstanceAs (Decidable (0 ≤ env.socket w.open_fds family))

/-- The candidate passes the bind probe: a probe socket of its family is created and the
bind to the candidate succeeds. -/
def passes_probe (env : Env) (w : World) (ss : sockaddr_storage) : Prop :=
  socket_available env w ss.sa_family ∧ bind_succeeds env ss

instance (env : Env) (w : World) (ss : sockaddr_storage) : Decidable (passes_probe env w ss) :=
  inferInstanceAs (Decidable (socket_available env w ss.sa_family ∧ bind_succeeds env ss))

/-- The text the claim on `fprint_addresses` describes: nothing for no element, else the
opening text, the formatted elements with the separator between them, the closing text. -/
def joined (pfx separator suffix : String) (formatted : List String) : String :=
  match formatted with
  | [] => ""
  | first :: rest => pfx ++ first ++ String.join (rest.map (fun t => separator ++ t)) ++ suffix

/-- The answer of the resolver to the query `detect_listen_addresses` makes for a port:
its status and its records. -/
def listen_resolution (env : Env) (listen_port : Int) : Int × List sockaddr :=
  env.getaddrinfo none (some (snprintf 32 (toString listen_port))) listen_hints

/-- The answer of the resolver to the query `add_source_ip` makes for a host string: its
status and its candidates. -/
def source_resolution (env : Env) (optarg : String) : Int × List sockaddr :=
  env.getaddrinfo (some optarg) none source_hints

/-- The text written to the stream `fp` by a sequence of writes. -/
def stream_text (fp : FILE) (writes : List (FILE × String)) : String :=
  String.join ((writes.filter (fun e => e.1 = fp)).map Prod.snd)

/-- The text `fprint_addresses` gets from `format_sockaddr` for an element. -/
def formatted (env : Env) (ss : sockaddr_storage) : String :=
  snprintf (INET6_ADDRSTRLEN + 64)
    ("[" ++ env.inet_ntop ss.sa_family (in_addr ss) ++ "]:" ++ toString (host_port ss))

/-- The writes of the loop of `fprint_addresses` for the elements `l`, the first of them at
index `n`, the last of them the last of the list. -/
def fprint_writes (env : Env) (fp : FILE) (pfx separator suffix : String) :
    Nat → List sockaddr_storage → List (FILE × String)
  | _, [] => []
  | n, ss :: rest =>
      (fp, if n = 0 then pfx else separator) :: (stderr, formatted env ss) ::
        ((if rest.isEmpty then [(fp, suffix)] else []) ++
          fprint_writes env fp pfx separator suffix (n + 1) rest)

/-! ## A concrete host, for evaluating the definitions -/

/-- The dotted-decimal text `inet_ntop` gives for `AF_INET`. -/
def inet_ntop4 (src : List Nat) : String :=
  String.intercalate "." ((src.take 4).map (fun b => toString (b % 256)))

/-- The eight 16-bit groups of an IPv6 address. -/
def in6_words (src : List Nat) : List Nat :=
  (List.range 8).map
    (fun i => (src.getD (2 * i) 0 % 256) * 256 + src.getD (2 * i + 1) 0 % 256)

/-- The longer of two runs (start, length), the earlier one on a tie. -/
def longer_run (best cur : Option (Nat × Nat)) : Option (Nat × Nat) :=
  match best, cur with
  | _, none => best
  | none, some c => some c
  | some b, some c => if c.2 > b.2 then some c else some b

/-- One pass over the groups, tracking the current and the longest run of zero groups. -/
def scan_zero_runs :
    List Nat → Nat → Option (Nat × Nat) → Option (Nat × Nat) → Option (Nat × Nat)
  | [], _, best, cur => longer_run best cur
  | g :: gs, i, best, cur =>
      if g = 0 then
        match cur with
        | none => scan_zero_runs gs (i + 1) best (some (i, 1))
        | some c => scan_zero_runs gs (i + 1) best (some (c.1, c.2 + 1))
      else scan_zero_runs gs (i + 1) (longer_run best cur) none

/-- The run of zero groups that is written as a double colon: the longest, of two groups
at least. -/
def best_zero_run (words : List Nat) : Option (Nat × Nat) :=
  match scan_zero_runs words 0 none none with
  | some b => if b.2 < 2 then none else some b
  | none => none

def hex (n : Nat) : String := String.mk (Nat.toDigits 16 n)

/-- The groups from index `i` on, `todo` of them left. -/
def inet_ntop6_from (src words : List Nat) (best : Option (Nat × Nat)) : Nat → Nat → String
  | _, 0 => ""
  | i, todo + 1 =>
      match best with
      | some b =>
          if b.1 ≤ i ∧ i < b.1 + b.2 then
            (if i = b.1 then ":" else "") ++ inet_ntop6_from src words best (i + 1) todo
          else
            (if i ≠ 0 then ":" else "") ++
              (if i = 6 ∧ b.1 = 0 ∧ (b.2 = 6 ∨ (b.2 = 5 ∧ words.getD 5 0 = 0xffff)) then
                inet_ntop4 (src.drop 12)
              else hex (words.getD i 0) ++ inet_ntop6_from src words best (i + 1) todo)
      | none =>
          (if i ≠ 0 then ":" else "") ++ hex (words.getD i 0) ++
            inet_ntop6_from src words best (i + 1) todo

/-- The text `inet_ntop` gives for `AF_INET6`, after the reference implementation of the
resolver library: hexadecimal groups, the longest run of zero groups shortened, an embedded
IPv4 address in dotted-decimal. -/
def inet_ntop6 (src : List Nat) : String :=
  let words := in6_words src
  let best := best_zero_run words
  inet_ntop6_from src words best 0 8 ++
    (match best with
     | some b => if b.1 + b.2 = 8 then ":" else ""
     | none => "")

def libc_inet_ntop (family : Nat) (src : List Nat) : String :=
  if family = AF_INET then inet_ntop4 src else inet_ntop6 src

/-- A `struct sockaddr_in`: port in network byte order, address, `sin_zero`. -/
def mk_sockaddr_in (port : Nat) (a b c d : Nat) : sockaddr :=
  { sa_family := AF_INET,
    sa_data := [port / 256 % 256, port % 256, a, b, c, d] ++ List.replicate 8 0 }

/-- A `struct sockaddr_in6`: port in network byte order, flow label, address, scope. -/
def mk_sockaddr_in6 (port : Nat) (addr : List Nat) : sockaddr :=
  { sa_family := AF_INET6,
    sa_data := [port / 256 % 256, port % 256] ++ [0, 0, 0, 0] ++ addr.take 16 ++ [0, 0, 0, 0] }

/-- The address 127.0.0.1. -/
def loopback4 (port : Nat) : sockaddr := mk_sockaddr_in port 127 0 0 1

/-- The address ::1. -/
def loopback6 (port : Nat) : sockaddr := mk_sockaddr_in6 port (List.replicate 15 0 ++ [1])

/-- The address 192.0.2.1, of a block reserved for documentation: on no interface. -/
def foreign4 (port : Nat) : sockaddr := mk_sockaddr_in port 192 0 2 1

/-- A socket address of the family `AF_UNIX` (1). -/
def unix_sockaddr : sockaddr := { sa_family := 1, sa_data := [47, 116, 109, 112, 0] }

/-- The lowest descriptor that is not open. -/
def lowest_unused (fds : List Nat) : Nat :=
  ((List.range (fds.length + 1)).find? (fun fd => fd ∉ fds)).getD fds.length

/-- A little-endian host with memory for blocks of up to 65536 slots, whose only addresses
are the loopback ones. The name `localhost`
resolves to both of them, `192.0.2.1` to itself, `mixed.example` to a local, a foreign and a
local address, `sock.example` to a record of another family; any other name is unknown. -/
def host : Env :=
  { ndebug := false
    little_endian := true
    realloc_null := fun _ k => decide (65536 < k)
    sockaddr_len := fun ss =>
      if ss.sa_family = AF_INET then 16 else if ss.sa_family = AF_INET6 then 28 else 0
    inet_ntop := libc_inet_ntop
    getaddrinfo := fun node service _ =>
      if node = none ∧ service = some "8080" then (0, [loopback4 8080, loopback6 8080])
      else if node = some "localhost" then (0, [loopback4 0, loopback6 0])
      else if node = some "192.0.2.1" then (0, [foreign4 0])
      else if node = some "mixed.example" then (0, [loopback4 0, foreign4 0, loopback6 0])
      else if node = some "sock.example" then (0, [unix_sockaddr])
      else (-2, [])
    gai_strerror := fun _ => "Name or service not known"
    socket := fun fds family =>
      if family = AF_INET ∨ family = AF_INET6 then (lowest_unused fds : Int) else -97
    bind := fun ss _ =>
      if ss.sa_family = AF_INET ∧ sin_addr ss = [127, 0, 0, 1] then 0
      else if ss.sa_family = AF_INET6 ∧ sin6_addr ss = List.replicate 15 0 ++ [1] then 0
      else -99
    strerror := fun e => if e = 99 then "Cannot assign requested address" else "Error" }

/-- The same host built with `NDEBUG`. -/
def host_ndebug : Env := { host with ndebug := true }

/-- The same host when there is no memory left for a block. -/
def host_without_memory : Env := { host with realloc_null := fun _ _ => true }

/-- The same host when the kernel hands out no descriptor (error 24, too many open files). -/
def host_without_descriptors : Env := { host with socket := fun _ _ => -24 }

/-- A process with its three standard streams open and nothing written. -/
def boot : World := { open_fds := [0, 1, 2], errno := 0, streams := [], binds := [] }

/-- The empty list. -/
def no_addresses : addresses := { addrs := [], n_addrs := 0 }

/-! ## Lemmas on outcomes -/

@[simp] theorem Outcome.returned_bind {α β : Type} (a : α) (f : α → Outcome β) :
    (Outcome.returned a >>= f) = f a := rfl

@[simp] theorem Outcome.aborted_bind {α β : Type} (f : α → Outcome β) :
    (Outcome.aborted >>= f) = Outcome.aborted := rfl

@[simp] theorem Outcome.exited_bind {α β : Type} (s : Int) (f : α → Outcome β) :
    (Outcome.exited s >>= f) = Outcome.exited s := rfl

@[simp] theorem Outcome.undefined_bind {α β : Type} (f : α → Outcome β) :
    (Outcome.undefined >>= f) = Outcome.undefined := rfl

@[simp] theorem Outcome.pure_eq {α : Type} (a : α) :
    (pure a : Outcome α) = Outcome.returned a := rfl

theorem Outcome.bind_eq_returned {α β : Type} {x : Outcome α} {f : α → Outcome β} {b : β}
    (h : (x >>= f) = Outcome.returned b) : ∃ a, x = Outcome.returned a ∧ f a = Outcome.returned b := by
  cases x with
  | returned a => exact ⟨a, rfl, h⟩
  | aborted => cases h
  | exited s => cases h
  | undefined => cases h

/-! ## Lemmas on `address_add` -/

theorem grown_set (l : List sockaddr_storage) (n : Nat) (x : sockaddr_storage)
    (h : n ≤ l.length) : (grown l (n + 1)).set n x = l.take n ++ [x] := by
  induction n generalizing l with
  | zero =>
    cases l with
    | nil => simp [grown]
    | cons a l => simp [grown]
  | succ n ih =>
    cases l with
    | nil => simp at h
    | cons a l =>
      have h1 : n ≤ l.length := by simpa using h
      have h2 : grown (a :: l) (n + 1 + 1) = a :: grown l (n + 1) := by
        simp [grown]
      rw [h2, List.set_cons_succ, ih l h1]
      simp

theorem grown_take (l : List sockaddr_storage) (k n : Nat) (hn : n ≤ k)
    (hl : n ≤ l.length) : (grown l k).take n = l.take n := by
  simp only [grown]
  rw [List.take_append_of_le_length (by simp; omega), List.take_take]
  simp [hn]

theorem elements_length (a : addresses) (hwf : well_formed a) :
    (elements a).length = a.n_addrs := by
  simp only [elements, List.length_take]
  exact Nat.min_eq_left hwf

theorem address_add_inet (env : Env) (a : addresses) (sa : sockaddr)
    (hwf : well_formed a) (h : inet_family sa)
    (halloc : env.realloc_null a.addrs (a.n_addrs + 1) = false) :
    address_add env a sa =
      .returned { addrs := elements a ++ [stored sa], n_addrs := a.n_addrs + 1 } := by
  unfold address_add
  simp only [realloc, halloc, Bool.false_eq_true, if_false, Option.isSome_some, c_assert,
    Bool.or_true, if_true, Outcome.returned_bind, store, Outcome.pure_eq]
  rcases h with h | h
  · simp only [h, if_true, stored, elements]
    rw [grown_set _ _ _ hwf]
  · have h4 : sa.sa_family ≠ AF_INET := by rw [h]; decide
    rw [if_neg h4, if_pos h, grown_set _ _ _ hwf]
    simp only [stored, elements, if_neg h4]

theorem address_add_null (env : Env) (a : addresses) (sa : sockaddr)
    (hnull : env.realloc_null a.addrs (a.n_addrs + 1) = true) :
    address_add env a sa =
      if env.ndebug then
        if inet_family sa then .undefined
        else .returned { addrs := [], n_addrs := a.n_addrs }
      else .aborted := by
  unfold address_add
  simp only [realloc, hnull, if_true, Option.isSome_none, c_assert, Bool.or_false, store,
    Option.getD_none]
  cases hnd : env.ndebug
  · simp
  · simp only [if_true, Outcome.returned_bind, Bool.true_or, Outcome.undefined_bind,
      Outcome.pure_eq]
    by_cases h4 : sa.sa_family = AF_INET
    · simp [h4, inet_family]
    · by_cases h6 : sa.sa_family = AF_INET6
      · simp [h4, h6, inet_family]
      · simp [h4, h6, inet_family]

theorem address_add_without_memory :
    address_add host_without_memory no_addresses (loopback4 8080) = .aborted ∧
    address_add { host_without_memory with ndebug := true } no_addresses (loopback4 8080) =
      .undefined := by
  constructor <;> decide

theorem address_add_other (env : Env) (a : addresses) (sa : sockaddr)
    (h : ¬ inet_family sa)
    (halloc : env.realloc_null a.addrs (a.n_addrs + 1) = false) :
    address_add env a sa =
      if env.ndebug then
        .returned { addrs := grown a.addrs (a.n_addrs + 1), n_addrs := a.n_addrs }
      else .aborted := by
  unfold address_add
  have h4 : sa.sa_family ≠ AF_INET := fun e => h (Or.inl e)
  have h6 : sa.sa_family ≠ AF_INET6 := fun e => h (Or.inr e)
  simp only [realloc, halloc, Bool.false_eq_true, if_false, Option.isSome_some, c_assert,
    Bool.or_true, if_true, Outcome.returned_bind, h4, h6, Option.getD_some, Bool.or_false]
  cases env.ndebug <;> simp

theorem stored_family (sa : sockaddr) : (stored sa).sa_family = sa.sa_family := by
  unfold stored
  split <;> rfl

theorem stored_same_address (sa : sockaddr) : same_address (stored sa) sa := by
  unfold stored
  by_cases h : sa.sa_family = AF_INET
  · rw [if_pos h]
    refine ⟨rfl, fun _ => ⟨?_, ?_⟩, fun h6 => ?_⟩
    · simp [as_sockaddr_in, sin_port, List.take_take]
    · simp [as_sockaddr_in, sin_addr, List.take_take, List.drop_take]
    · rw [h] at h6
      exact absurd h6 (by decide)
  · rw [if_neg h]
    refine ⟨rfl, fun h4 => absurd h4 h, fun _ => ⟨?_, ?_⟩⟩
    · simp [as_sockaddr_in6, sin6_port, List.take_take]
    · simp [as_sockaddr_in6, sin6_addr, List.take_take, List.drop_take]

theorem stored_inet_record (sa : sockaddr) (h : inet_record sa) : stored sa = sa := by
  unfold stored
  rcases h with ⟨hf, hl⟩ | ⟨hf, hl⟩
  · rw [if_pos hf]
    simp only [as_sockaddr_in]
    rw [List.take_of_length_le (by omega)]
  · have h4 : sa.sa_family ≠ AF_INET := by rw [hf]; decide
    rw [if_neg h4]
    simp only [as_sockaddr_in6]
    rw [List.take_of_length_le (by omega)]

theorem inet_record_family (sa : sockaddr) (h : inet_record sa) : inet_family sa := by
  rcases h with ⟨hf, _⟩ | ⟨hf, _⟩
  · exact Or.inl hf
  · exact Or.inr hf

theorem elements_mk (l : List sockaddr_storage) :
    elements { addrs := l, n_addrs := l.length } = l := by
  simp [elements]

theorem allocates_succ (env : Env) (lo hi : Nat) (h : allocates env lo hi) :
    allocates env (lo + 1) hi :=
  fun l k h1 h2 => h l k (by omega) h2

theorem host_allocates (lo hi : Nat) (h : hi ≤ 65536) : allocates host lo hi :=
  fun _ k _ hk => decide_eq_false (by omega)

theorem allocates_step (env : Env) (n m : Nat) (h : allocates env n (n + (m + 1))) :
    (∀ l, env.realloc_null l (n + 1) = false) ∧ allocates env (n + 1) (n + 1 + m) :=
  ⟨fun l => h l (n + 1) (by omega) (by omega), fun l k h1 h2 => h l k (by omega) (by omega)⟩

theorem address_add_each_inet (env : Env) (sas : List sockaddr) :
    ∀ (a : addresses), well_formed a → (∀ sa ∈ sas, inet_family sa) →
      allocates env a.n_addrs (a.n_addrs + sas.length) →
      ∃ a', address_add_each env a sas = .returned a' ∧ well_formed a' ∧
        a'.n_addrs = a.n_addrs + sas.length ∧
        elements a' = elements a ++ sas.map stored := by
  induction sas with
  | nil =>
    intro a hwf _ _
    exact ⟨a, rfl, hwf, rfl, by simp⟩
  | cons sa rest ih =>
    intro a hwf h halloc
    have hl := elements_length a hwf
    have hwf1 : well_formed
        { addrs := elements a ++ [stored sa], n_addrs := a.n_addrs + 1 } := by
      simp [well_formed, hl]
    have halloc1 : allocates env (a.n_addrs + 1) (a.n_addrs + 1 + rest.length) := by
      have := allocates_succ env _ _ halloc
      simpa [List.length_cons, Nat.add_assoc, Nat.add_comm 1 rest.length] using this
    obtain ⟨a', h1, h2, h3, h4⟩ := ih _ hwf1 (fun x hx => h x (List.mem_cons_of_mem _ hx))
      halloc1
    refine ⟨a', ?_, h2, ?_, ?_⟩
    · simp only [address_add_each]
      rw [address_add_inet env a sa hwf (h sa (List.mem_cons_self _ _))
        (halloc _ _ (by omega) (by simp))]
      exact h1
    · rw [h3]
      simp only [List.length_cons]
      omega
    · rw [h4]
      have : elements { addrs := elements a ++ [stored sa], n_addrs := a.n_addrs + 1 } =
          elements a ++ [stored sa] := by
        have := elements_mk (elements a ++ [stored sa])
        simpa [hl] using this
      rw [this]
      simp

/-! ## The properties -/

/-- C1: when there is memory for the blocks, appending addresses of family IPv4 or IPv6
one by one to the empty list returns a list whose count is the number of appends and whose
i-th slot holds the i-th address (same family, port and address bytes; the very address
when it is a whole IPv4 or IPv6 socket address); and one append to any list adds one to the
count, leaves every element already stored in its place and puts the new address last. -/
theorem address_add_roundtrip (env : Env) (sas : List sockaddr)
    (h : ∀ sa ∈ sas, inet_family sa) (halloc : allocates env 0 sas.length) :
    (∃ a, address_add_each env no_addresses sas = .returned a ∧
      a.n_addrs = sas.length ∧
      ∀ i (hi : i < sas.length), ∃ ss, a.addrs[i]? = some ss ∧ same_address ss sas[i] ∧
        (inet_record sas[i] → ss = sas[i])) ∧
    (∀ (a : addresses) (sa : sockaddr), well_formed a → inet_family sa →
      env.realloc_null a.addrs (a.n_addrs + 1) = false →
      ∃ a', address_add env a sa = .returned a' ∧ a'.n_addrs = a.n_addrs + 1 ∧
        (∀ i, i < a.n_addrs → a'.addrs[i]? = a.addrs[i]?) ∧
        ∃ ss, a'.addrs[a.n_addrs]? = some ss ∧ same_address ss sa ∧
          (inet_record sa → ss = sa)) := by
  constructor
  · have hwf : well_formed no_addresses := by decide
    have halloc0 : allocates env no_addresses.n_addrs (no_addresses.n_addrs + sas.length) := by
      simpa [no_addresses] using halloc
    obtain ⟨a, h1, h2, h3, h4⟩ := address_add_each_inet env sas no_addresses hwf h halloc0
    refine ⟨a, h1, by simpa [no_addresses] using h3, ?_⟩
    intro i hi
    have hn : a.n_addrs = sas.length := by simpa [no_addresses] using h3
    have he : a.addrs.take a.n_addrs = sas.map stored := by
      simpa [elements, no_addresses] using h4
    have hg : a.addrs[i]? = (sas.map stored)[i]? := by
      rw [← he, List.getElem?_take]
      simp [hn, hi]
    refine ⟨stored sas[i], ?_, stored_same_address _, fun hr => stored_inet_record _ hr⟩
    rw [hg]
    simp [hi]
  · intro a sa hwf hsa hmem
    refine ⟨_, address_add_inet env a sa hwf hsa hmem, rfl, ?_, stored sa, ?_,
      stored_same_address _, fun hr => stored_inet_record _ hr⟩
    · intro i hi
      have hl := elements_length a hwf
      simp only [elements] at hl ⊢
      rw [List.getElem?_append_left (by omega), List.getElem?_take]
      simp [hi]
    · have hl := elements_length a hwf
      rw [List.getElem?_append_right (by omega)]
      simp [hl]

theorem address_add_roundtrip_witness :
    (∀ sa ∈ [loopback4 8080, loopback6 443, foreign4 80], inet_family sa) ∧
    allocates host 0 3 ∧
    ∃ a, address_add_each host no_addresses [loopback4 8080, loopback6 443, foreign4 80] =
        .returned a ∧ a.n_addrs = 3 ∧ a.addrs[1]? = some (loopback6 443) := by
  have hmem : allocates host 0 3 := fun _ k _ hk => decide_eq_false (by omega)
  refine ⟨by decide, hmem, ?_⟩
  obtain ⟨a, h1, h2, h3⟩ :=
    (address_add_roundtrip host [loopback4 8080, loopback6 443, foreign4 80]
      (by decide) hmem).1
  refine ⟨a, h1, h2, ?_⟩
  obtain ⟨ss, e1, _, e3⟩ := h3 1 (by decide)
  rw [e1, e3 (by decide)]
  rfl

theorem ntohs_load_u16 (le : Bool) (bytes : List Nat) :
    ntohs le (load_u16 le bytes) =
      256 * (bytes.getD 0 0 % 256) + bytes.getD 1 0 % 256 := by
  cases le
  · simp only [ntohs, load_u16, Bool.false_eq_true, if_false]
    omega
  · simp only [ntohs, load_u16, if_true]
    omega

theorem host_port_le (ss : sockaddr_storage) : host_port ss ≤ 65535 := by
  unfold host_port
  omega

theorem snprintf_fits (size : Nat) (text : String) (h : text.length < size) :
    snprintf size text = text := by
  unfold snprintf
  rw [List.take_of_length_le]
  have : text.data.length = text.length := rfl
  omega

theorem format_sockaddr_inet (env : Env) (ss : sockaddr_storage) (size : Nat)
    (hfam : inet_family ss) :
    format_sockaddr env ss size =
      .returned (snprintf size
        ("[" ++ env.inet_ntop ss.sa_family (in_addr ss) ++ "]:" ++ toString (host_port ss))) := by
  unfold format_sockaddr in_addr host_port
  rcases hfam with h | h
  · simp only [h, if_true, ntohs_load_u16]
  · have h4 : ss.sa_family ≠ AF_INET := by rw [h]; decide
    rw [if_neg h4, if_pos h, if_neg h4]
    simp only [ntohs_load_u16, sin6_port, sin_port]

/-- C3: for an address of family IPv4 or IPv6 and a buffer that holds the whole text,
`format_sockaddr` returns an opening bracket, the text `inet_ntop` gives for the family and
the address bytes, a closing bracket, a colon and the decimal port; the port is the stored
network-order port converted by `ntohs`, which is the value of its two bytes read most
significant first and lies in 0..65535. -/
theorem format_sockaddr_spec (env : Env) (ss : sockaddr_storage) (size : Nat)
    (hfam : inet_family ss)
    (hsize : ("[" ++ env.inet_ntop ss.sa_family (in_addr ss) ++ "]:" ++
      toString (host_port ss)).length < size) :
    format_sockaddr env ss size =
      .returned ("[" ++ env.inet_ntop ss.sa_family (in_addr ss) ++ "]:" ++
        toString (host_port ss)) ∧
    host_port ss = ntohs env.little_endian (load_u16 env.little_endian (sin_port ss)) ∧
    host_port ss ≤ 65535 := by
  refine ⟨?_, ?_, host_port_le ss⟩
  · rw [format_sockaddr_inet env ss size hfam, snprintf_fits _ _ hsize]
  · rw [ntohs_load_u16]
    rfl

theorem format_sockaddr_spec_witness :
    format_sockaddr host (loopback4 8080) (INET6_ADDRSTRLEN + 64) =
      .returned "[127.0.0.1]:8080" ∧
    format_sockaddr host (loopback6 443) (INET6_ADDRSTRLEN + 64) = .returned "[::1]:443" :=
  ⟨(format_sockaddr_spec host (loopback4 8080) (INET6_ADDRSTRLEN + 64)
      (by decide) (by decide)).1.trans (by decide),
   (format_sockaddr_spec host (loopback6 443) (INET6_ADDRSTRLEN + 64)
      (by decide) (by decide)).1.trans (by decide)⟩

/-! ## Lemmas on `fprint_addresses` -/

theorem all_inet_slot (a : addresses) (h : all_inet a) (i : Nat) (hi : i < a.n_addrs) :
    ∃ ss, a.addrs[i]? = some ss ∧ inet_family ss := by
  obtain ⟨hwf, hel⟩ := h
  have hlen : i < a.addrs.length := Nat.lt_of_lt_of_le hi hwf
  refine ⟨a.addrs[i], List.getElem?_eq_getElem hlen, hel _ ?_⟩
  rw [elements, List.mem_iff_getElem?]
  refine ⟨i, ?_⟩
  rw [List.getElem?_take]
  simp [hi, List.getElem?_eq_getElem hlen]

theorem fprint_addresses_from_returns (env : Env) (fp : FILE) (pfx separator suffix : String)
    (a : addresses) :
    ∀ (todo n : Nat) (w : World),
      (∀ i, n ≤ i → i < n + todo → ∃ ss, a.addrs[i]? = some ss ∧ inet_family ss) →
      ∃ w', fprint_addresses_from env fp pfx separator suffix a n todo w = .returned w' ∧
        w'.open_fds = w.open_fds ∧ w'.binds = w.binds := by
  intro todo
  induction todo with
  | zero =>
    intro n w _
    exact ⟨w, rfl, rfl, rfl⟩
  | succ todo ih =>
    intro n w h
    obtain ⟨ss, hss, hfam⟩ := h n (Nat.le_refl n) (by omega)
    simp only [fprint_addresses_from, slot, hss, Outcome.returned_bind,
      format_sockaddr_inet env ss _ hfam]
    obtain ⟨w', h1, h2, h3⟩ := ih (n + 1)
      (if n = a.n_addrs - 1 then
        fprintf (fprintf (if n = 0 then fprintf w fp pfx else fprintf w fp separator) stderr
          (snprintf (INET6_ADDRSTRLEN + 64) ("[" ++ env.inet_ntop ss.sa_family (in_addr ss) ++
            "]:" ++ toString (host_port ss)))) fp suffix
       else
        fprintf (if n = 0 then fprintf w fp pfx else fprintf w fp separator) stderr
          (snprintf (INET6_ADDRSTRLEN + 64) ("[" ++ env.inet_ntop ss.sa_family (in_addr ss) ++
            "]:" ++ toString (host_port ss))))
      (fun i h1 h2 => h i (by omega) (by omega))
    refine ⟨w', h1, ?_, ?_⟩
    · rw [h2]
      split <;> split <;> rfl
    · rw [h3]
      split <;> split <;> rfl

theorem fprint_addresses_returns (env : Env) (fp : FILE) (pfx separator suffix : String)
    (a : addresses) (w : World) (h : all_inet a) :
    ∃ w', fprint_addresses env fp pfx separator suffix a w = .returned w' ∧
      w'.open_fds = w.open_fds ∧ w'.binds = w.binds :=
  fprint_addresses_from_returns env fp pfx separator suffix a a.n_addrs 0 w
    (fun i _ hi => all_inet_slot a h i (by omega))

/-! ## Lemmas on the resolvers -/

theorem elements_getElem? (a : addresses) (i : Nat) (hi : i < a.n_addrs) :
    a.addrs[i]? = (elements a)[i]? := by
  rw [elements, List.getElem?_take]
  simp [hi]

theorem all_inet_of_elements (a : addresses) (l : List sockaddr) (hwf : well_formed a)
    (he : elements a = l) (hl : ∀ sa ∈ l, inet_family sa) : all_inet a :=
  ⟨hwf, fun ss hss => hl ss (he ▸ hss)⟩

/-- C7: when `getaddrinfo` succeeds and there is memory for the blocks,
`detect_listen_addresses` returns, for every port, the list of all records in the order
received and nothing else: the count is the number of records and the i-th element has the
family, port and address bytes of the i-th record, and is that record when the record is a
whole IPv4 or IPv6 socket address. (The records have family IPv4 or IPv6.) -/
theorem detect_listen_addresses_spec (env : Env) (listen_port : Int) (w : World)
    (hok : (listen_resolution env listen_port).1 = 0)
    (hrec : ∀ r ∈ (listen_resolution env listen_port).2, inet_family r)
    (halloc : allocates env 0 (listen_resolution env listen_port).2.length) :
    ∃ a w', detect_listen_addresses env listen_port w = .returned (a, w') ∧
      a.n_addrs = (listen_resolution env listen_port).2.length ∧
      ∀ i (hi : i < (listen_resolution env listen_port).2.length),
        ∃ ss, a.addrs[i]? = some ss ∧
          same_address ss (listen_resolution env listen_port).2[i] ∧
          (inet_record (listen_resolution env listen_port).2[i] →
            ss = (listen_resolution env listen_port).2[i]) := by
  obtain ⟨a, h1, h2, h3, h4⟩ :=
    address_add_each_inet env (listen_resolution env listen_port).2 no_addresses
      (by decide) hrec (by simpa [no_addresses] using halloc)
  have hn : a.n_addrs = (listen_resolution env listen_port).2.length := by
    simpa [no_addresses] using h3
  have he : elements a = (listen_resolution env listen_port).2.map stored := by
    rw [h4]
    simp [elements, no_addresses]
  have hinv : all_inet a := by
    refine all_inet_of_elements a _ h2 he ?_
    intro sa hsa
    obtain ⟨r, hr, e⟩ := List.mem_map.mp hsa
    rw [← e]
    unfold inet_family
    rw [stored_family]
    exact hrec r hr
  obtain ⟨w', hw, _, _⟩ := fprint_addresses_returns env stderr "Listen on: " "\nListen on: "
    "\n" a w hinv
  refine ⟨a, w', ?_, hn, ?_⟩
  · unfold detect_listen_addresses
    unfold listen_resolution at hok h1
    unfold no_addresses at h1
    simp only [hok, ne_eq, not_true_eq_false, if_false, h1, Outcome.returned_bind, hw,
      Outcome.pure_eq]
  · intro i hi
    refine ⟨stored (listen_resolution env listen_port).2[i], ?_, stored_same_address _,
      fun h => stored_inet_record _ h⟩
    rw [elements_getElem? a i (by omega), he]
    simp [hi]

theorem detect_listen_addresses_spec_witness :
    (listen_resolution host 8080).1 = 0 ∧
    (∀ r ∈ (listen_resolution host 8080).2, inet_family r) ∧
    allocates host 0 (listen_resolution host 8080).2.length ∧
    ∃ a w', detect_listen_addresses host 8080 boot = .returned (a, w') ∧
      a.n_addrs = 2 ∧ a.addrs[0]? = some (loopback4 8080) ∧
      a.addrs[1]? = some (loopback6 8080) := by
  have hmem : allocates host 0 (listen_resolution host 8080).2.length :=
    fun _ k _ hk => decide_eq_false (by
      have h2 : (listen_resolution host 8080).2.length = 2 := by decide
      omega)
  refine ⟨by decide, by decide, hmem, ?_⟩
  obtain ⟨a, w', h1, h2, h3⟩ :=
    detect_listen_addresses_spec host 8080 boot (by decide) (by decide) hmem
  refine ⟨a, w', h1, h2.trans (by decide), ?_, ?_⟩
  · obtain ⟨ss, e1, _, e3⟩ := h3 0 (by decide)
    rw [e1, e3 (by decide)]
    rfl
  · obtain ⟨ss, e1, _, e3⟩ := h3 1 (by decide)
    rw [e1, e3 (by decide)]
    rfl

/-! ## Lemmas on the probe -/

theorem check_if_bindable_ip_opened (env : Env) (ss : sockaddr_storage) (w : World)
    (hfam : inet_family ss) (hsock : socket_available env w ss.sa_family) :
    ∃ w', check_if_bindable_ip env ss w =
        .returned (if bind_succeeds env ss then 0 else -1, w') ∧
      w'.open_fds = w.open_fds ∧ w'.binds = w.binds ++ [ss] := by
  unfold socket_available at hsock
  have hne : env.socket w.open_fds ss.sa_family ≠ -1 := by omega
  unfold check_if_bindable_ip
  simp only [sys_socket, hsock, if_true, c_assert, hne, ne_eq, not_false_eq_true,
    decide_True, Bool.or_true, Outcome.returned_bind, sys_bind, true_and,
    List.mem_cons, true_or, sys_close, bind_succeeds]
  by_cases hb : env.bind ss (env.sockaddr_len ss) = 0
  · simp [hb]
  · simp [hb, format_sockaddr_inet env ss _ hfam, fprintf]

theorem format_sockaddr_other (env : Env) (ss : sockaddr_storage) (size : Nat)
    (hfam : ¬ inet_family ss) :
    format_sockaddr env ss size =
      if env.ndebug then .returned "<unknown>" else .aborted := by
  unfold format_sockaddr
  have h4 : ss.sa_family ≠ AF_INET := fun e => hfam (Or.inl e)
  have h6 : ss.sa_family ≠ AF_INET6 := fun e => hfam (Or.inr e)
  simp only [h4, h6, if_false, c_assert]
  cases env.ndebug <;> simp

theorem check_if_bindable_ip_no_socket (env : Env) (ss : sockaddr_storage) (w : World)
    (hfam : inet_family ss) (hsock : ¬ socket_available env w ss.sa_family) :
    check_if_bindable_ip env ss w =
      if env.ndebug then
        .returned (-1, fprintf
          { w with errno := EBADF, binds := w.binds ++ [ss] } stderr
          (snprintf 256 ("[" ++ env.inet_ntop ss.sa_family (in_addr ss) ++ "]:" ++
            toString (host_port ss)) ++ " is not local: " ++ env.strerror EBADF ++ "\n"))
      else .aborted := by
  unfold socket_available at hsock
  unfold check_if_bindable_ip
  simp only [sys_socket, hsock, if_false, c_assert, ne_eq, not_true_eq_false, decide_False,
    Bool.or_false, sys_bind, sys_close]
  cases hnd : env.ndebug
  · simp
  · simp [format_sockaddr_inet env ss _ hfam]

theorem check_if_bindable_ip_returned (env : Env) (ss : sockaddr_storage) (w : World)
    (rc : Int) (w' : World) (h : check_if_bindable_ip env ss w = .returned (rc, w')) :
    (rc = 0 ↔ (sys_bind env (sys_socket env w ss.sa_family).2
        (sys_socket env w ss.sa_family).1 ss (env.sockaddr_len ss)).1 = 0) ∧
      (rc = 0 ∨ rc = -1) ∧ w'.open_fds = w.open_fds := by
  unfold check_if_bindable_ip at h
  by_cases hs : 0 ≤ env.socket w.open_fds ss.sa_family
  · have hne : env.socket w.open_fds ss.sa_family ≠ -1 := by omega
    simp only [sys_socket, hs, if_true, c_assert, hne, ne_eq, not_false_eq_true,
      decide_True, Bool.or_true, Outcome.returned_bind, sys_bind, true_and,
      List.mem_cons, true_or, sys_close] at h ⊢
    by_cases hb : env.bind ss (env.sockaddr_len ss) = 0
    · simp only [hb, if_true] at h ⊢
      simp at h
      obtain ⟨h1, h2⟩ := h
      subst h1 h2
      simp
    · simp only [hb, if_false] at h ⊢
      simp only [if_true] at h
      obtain ⟨t, _, ht⟩ := Outcome.bind_eq_returned h
      simp at ht
      obtain ⟨h1, h2⟩ := ht
      subst h1 h2
      simp [fprintf]
  · simp only [sys_socket, hs, if_false, c_assert, ne_eq, not_true_eq_false, decide_False,
      Bool.or_false, sys_bind, sys_close] at h ⊢
    cases hnd : env.ndebug
    · simp [hnd] at h
    · simp only [hnd, if_true, Outcome.returned_bind] at h
      simp at h
      obtain ⟨t, _, ht⟩ := Outcome.bind_eq_returned h
      simp at ht
      obtain ⟨h1, h2⟩ := ht
      subst h1 h2
      simp [fprintf]

/-! ## Lemmas on `add_source_ip` -/

theorem add_source_ip_loop_cons (env : Env) (sa : sockaddr) (rest : List sockaddr)
    (a : addresses) (w : World) (hwf : well_formed a) (hrec : inet_record sa)
    (hmem : env.realloc_null a.addrs (a.n_addrs + 1) = false)
    (hsock : socket_available env w sa.sa_family) :
    ∃ w1, w1.open_fds = w.open_fds ∧ w1.binds = w.binds ++ [sa] ∧
      add_source_ip_loop env (sa :: rest) a w =
        if bind_succeeds env sa then
          add_source_ip_loop env rest
            { addrs := elements a ++ [sa], n_addrs := a.n_addrs + 1 } w1
        else
          .returned (-1, { addrs := elements a ++ [sa], n_addrs := a.n_addrs + 1 }, w1) := by
  have hfam := inet_record_family sa hrec
  obtain ⟨w1, h1, h2, h3⟩ := check_if_bindable_ip_opened env sa w hfam hsock
  refine ⟨w1, h2, h3, ?_⟩
  have hl := elements_length a hwf
  have hslot : slot (elements a ++ [sa]) (a.n_addrs + 1 - 1) = .returned sa := by
    unfold slot
    rw [Nat.add_sub_cancel, List.getElem?_append_right (by omega)]
    simp [hl]
  simp only [add_source_ip_loop]
  rw [address_add_inet env a sa hwf hfam hmem, stored_inet_record sa hrec]
  simp only [Outcome.returned_bind, Nat.add_one_ne_zero, if_false, hslot, h1]
  by_cases hb : bind_succeeds env sa
  · simp [hb]
  · simp [hb]

theorem well_formed_snoc (a : addresses) (sa : sockaddr) (hwf : well_formed a) :
    well_formed { addrs := elements a ++ [sa], n_addrs := a.n_addrs + 1 } := by
  simp [well_formed, elements_length a hwf]

theorem elements_snoc (a : addresses) (sa : sockaddr) (hwf : well_formed a) :
    elements { addrs := elements a ++ [sa], n_addrs := a.n_addrs + 1 } =
      elements a ++ [sa] := by
  have := elements_mk (elements a ++ [sa])
  simpa [elements_length a hwf] using this

theorem socket_available_congr (env : Env) (w w1 : World) (family : Nat)
    (h : w1.open_fds = w.open_fds) (hs : socket_available env w family) :
    socket_available env w1 family := by
  unfold socket_available at hs ⊢
  rw [h]
  exact hs

theorem add_source_ip_loop_pass (env : Env) (recs : List sockaddr) :
    ∀ (a : addresses) (w : World), well_formed a → (∀ r ∈ recs, inet_record r) →
      allocates env a.n_addrs (a.n_addrs + recs.length) →
      (∀ r ∈ recs, socket_available env w r.sa_family) →
      (∀ r ∈ recs, bind_succeeds env r) →
      ∃ a' w', add_source_ip_loop env recs a w = .returned (0, a', w') ∧
        well_formed a' ∧ a'.n_addrs = a.n_addrs + recs.length ∧
        elements a' = elements a ++ recs ∧
        w'.open_fds = w.open_fds ∧ w'.binds = w.binds ++ recs := by
  induction recs with
  | nil =>
    intro a w hwf _ _ _ _
    exact ⟨a, w, rfl, hwf, rfl, by simp, rfl, by simp⟩
  | cons sa rest ih =>
    intro a w hwf hrec halloc hsock hbind
    obtain ⟨hmem, halloc1⟩ := allocates_step env a.n_addrs rest.length halloc
    obtain ⟨w1, h1, h2, h3⟩ := add_source_ip_loop_cons env sa rest a w hwf
      (hrec sa (List.mem_cons_self _ _)) (hmem _) (hsock sa (List.mem_cons_self _ _))
    rw [if_pos (hbind sa (List.mem_cons_self _ _))] at h3
    obtain ⟨a', w', e1, e2, e3, e4, e5, e6⟩ := ih _ w1 (well_formed_snoc a sa hwf)
      (fun r hr => hrec r (List.mem_cons_of_mem _ hr)) halloc1
      (fun r hr => socket_available_congr env w w1 _ h1 (hsock r (List.mem_cons_of_mem _ hr)))
      (fun r hr => hbind r (List.mem_cons_of_mem _ hr))
    refine ⟨a', w', h3.trans e1, e2, ?_, ?_, e5.trans h1, ?_⟩
    · rw [e3]
      simp only [List.length_cons]
      omega
    · rw [e4, elements_snoc a sa hwf]
      simp
    · rw [e6, h2]
      simp

theorem add_source_ip_loop_fail (env : Env) (pre : List sockaddr) (c : sockaddr)
    (post : List sockaddr) :
    ∀ (a : addresses) (w : World), well_formed a →
      (∀ r ∈ pre ++ [c], inet_record r ∧ socket_available env w r.sa_family) →
      allocates env a.n_addrs (a.n_addrs + (pre.length + 1)) →
      (∀ r ∈ pre, bind_succeeds env r) → ¬ bind_succeeds env c →
      ∃ a' w', add_source_ip_loop env (pre ++ c :: post) a w = .returned (-1, a', w') ∧
        well_formed a' ∧ a'.n_addrs = a.n_addrs + (pre.length + 1) ∧
        elements a' = elements a ++ (pre ++ [c]) ∧
        w'.open_fds = w.open_fds ∧ w'.binds = w.binds ++ (pre ++ [c]) := by
  induction pre with
  | nil =>
    intro a w hwf hrec halloc _ hc
    obtain ⟨hmem, _⟩ := allocates_step env a.n_addrs 0 halloc
    obtain ⟨w1, h1, h2, h3⟩ := add_source_ip_loop_cons env c post a w hwf
      (hrec c (by simp)).1 (hmem _) (hrec c (by simp)).2
    rw [if_neg hc] at h3
    exact ⟨_, w1, h3, well_formed_snoc a c hwf, rfl,
      by rw [elements_snoc a c hwf]; simp, h1, by rw [h2]; simp⟩
  | cons sa rest ih =>
    intro a w hwf hrec halloc hbind hc
    obtain ⟨hmem, halloc1⟩ := allocates_step env a.n_addrs (rest.length + 1) halloc
    obtain ⟨w1, h1, h2, h3⟩ := add_source_ip_loop_cons env sa (rest ++ c :: post) a w hwf
      (hrec sa (by simp)).1 (hmem _) (hrec sa (by simp)).2
    rw [if_pos (hbind sa (List.mem_cons_self _ _))] at h3
    have hrest : ∀ r ∈ rest ++ [c], inet_record r ∧ socket_available env w1 r.sa_family := by
      intro r hr
      have hm : r ∈ sa :: rest ++ [c] := by
        rw [List.cons_append]
        exact List.mem_cons_of_mem _ hr
      exact ⟨(hrec r hm).1, socket_available_congr env w w1 _ h1 (hrec r hm).2⟩
    obtain ⟨a', w', e1, e2, e3, e4, e5, e6⟩ := ih _ w1 (well_formed_snoc a sa hwf) hrest
      halloc1 (fun r hr => hbind r (List.mem_cons_of_mem _ hr)) hc
    refine ⟨a', w', ?_, e2, ?_, ?_, e5.trans h1, ?_⟩
    · rw [List.cons_append, h3]
      exact e1
    · rw [e3]
      simp only [List.length_cons]
      omega
    · rw [e4, elements_snoc a sa hwf]
      simp
    · rw [e6, h2]
      simp

theorem add_source_ip_loop_cons_no_socket (env : Env) (sa : sockaddr) (rest : List sockaddr)
    (a : addresses) (w : World) (hwf : well_formed a) (hrec : inet_record sa)
    (hmem : env.realloc_null a.addrs (a.n_addrs + 1) = false)
    (hsock : ¬ socket_available env w sa.sa_family) :
    ∀ a' w', add_source_ip_loop env (sa :: rest) a w ≠ .returned (0, a', w') := by
  intro a' w'
  have hfam := inet_record_family sa hrec
  have h1 := check_if_bindable_ip_no_socket env sa w hfam hsock
  have hl := elements_length a hwf
  have hslot : slot (elements a ++ [sa]) (a.n_addrs + 1 - 1) = .returned sa := by
    unfold slot
    rw [Nat.add_sub_cancel, List.getElem?_append_right (by omega)]
    simp [hl]
  simp only [add_source_ip_loop]
  rw [address_add_inet env a sa hwf hfam hmem, stored_inet_record sa hrec]
  simp only [Outcome.returned_bind, Nat.add_one_ne_zero, if_false, hslot, h1]
  cases env.ndebug <;> simp

theorem add_source_ip_loop_zero (env : Env) (recs : List sockaddr) :
    ∀ (a : addresses) (w : World) (a' : addresses) (w' : World), well_formed a →
      (∀ r ∈ recs, inet_record r) →
      allocates env a.n_addrs (a.n_addrs + recs.length) →
      add_source_ip_loop env recs a w = .returned (0, a', w') →
      ∀ r ∈ recs, passes_probe env w r := by
  induction recs with
  | nil =>
    intro a w a' w' _ _ _ _ r hr
    exact absurd hr (List.not_mem_nil r)
  | cons sa rest ih =>
    intro a w a' w' hwf hrec halloc h
    obtain ⟨hmem, halloc1⟩ := allocates_step env a.n_addrs rest.length halloc
    have hsa := hrec sa (List.mem_cons_self _ _)
    by_cases hsock : socket_available env w sa.sa_family
    · obtain ⟨w1, h1, _, h3⟩ := add_source_ip_loop_cons env sa rest a w hwf hsa (hmem _) hsock
      rw [h3] at h
      by_cases hb : bind_succeeds env sa
      · rw [if_pos hb] at h
        have hrest := ih _ w1 a' w' (well_formed_snoc a sa hwf)
          (fun r hr => hrec r (List.mem_cons_of_mem _ hr)) halloc1 h
        intro r hr
        rcases List.mem_cons.mp hr with e | e
        · rw [e]
          exact ⟨hsock, hb⟩
        · exact ⟨socket_available_congr env w1 w _ h1.symm (hrest r e).1, (hrest r e).2⟩
      · rw [if_neg hb] at h
        cases h
    · exact absurd h
        (add_source_ip_loop_cons_no_socket env sa rest a w hwf hsa (hmem _) hsock a' w')

theorem add_source_ip_loop_status (env : Env) (recs : List sockaddr) :
    ∀ (a : addresses) (w : World) (rc : Int) (a' : addresses) (w' : World),
      add_source_ip_loop env recs a w = .returned (rc, a', w') → rc = 0 ∨ rc = -1 := by
  induction recs with
  | nil =>
    intro a w rc a' w' h
    simp only [add_source_ip_loop] at h
    cases h
    exact Or.inl rfl
  | cons sa rest ih =>
    intro a w rc a' w' h
    simp only [add_source_ip_loop] at h
    obtain ⟨a1, _, h2⟩ := Outcome.bind_eq_returned h
    have h2' : (slot a1.addrs (a1.n_addrs - 1) >>= fun ss =>
        check_if_bindable_ip env ss w >>= fun p =>
          if p.1 < 0 then pure (-1, a1, p.2) else add_source_ip_loop env rest a1 p.2) =
        .returned (rc, a', w') := by
      by_cases hz : a1.n_addrs = 0
      · rw [if_pos hz] at h2
        cases h2
      · rw [if_neg hz] at h2
        exact h2
    obtain ⟨ss, _, h3⟩ := Outcome.bind_eq_returned h2'
    obtain ⟨p, _, h4⟩ := Outcome.bind_eq_returned h3
    by_cases hp : p.1 < 0
    · rw [if_pos hp] at h4
      cases h4
      exact Or.inr rfl
    · rw [if_neg hp] at h4
      exact ih a1 p.2 rc a' w' h4

/-- C6: when the resolution query of `add_source_ip` fails, the call returns -1, the list is
the one it was given, `bind` is not called and no descriptor is opened; the only effect is
the diagnostic on the standard error stream. -/
theorem add_source_ip_resolution_failure (env : Env) (a : addresses) (optarg : String)
    (w : World) (herr : (source_resolution env optarg).1 ≠ 0) :
    ∃ w', add_source_ip env a optarg w = .returned (-1, a, w') ∧
      w'.binds = w.binds ∧ w'.open_fds = w.open_fds ∧
      w'.streams = w.streams ++
        [(stderr, "getaddrinfo: " ++
          env.gai_strerror (source_resolution env optarg).1 ++ "\n")] := by
  unfold source_resolution at herr
  refine ⟨fprintf w stderr ("getaddrinfo: " ++
    env.gai_strerror (source_resolution env optarg).1 ++ "\n"), ?_, rfl, rfl, rfl⟩
  unfold add_source_ip
  rw [if_pos herr]
  rfl

theorem add_source_ip_resolution_failure_witness :
    (source_resolution host "no.such.name").1 ≠ 0 ∧
    ∃ w', add_source_ip host { addrs := [loopback4 0], n_addrs := 1 } "no.such.name" boot =
        .returned (-1, { addrs := [loopback4 0], n_addrs := 1 }, w') ∧
      w'.binds = [] ∧ w'.open_fds = [0, 1, 2] :=
  ⟨by decide,
    (add_source_ip_resolution_failure host { addrs := [loopback4 0], n_addrs := 1 }
      "no.such.name" boot (by decide)).elim
      (fun w' h => ⟨w', h.1, h.2.1, h.2.2.1⟩)⟩

/-- C5: when the resolution succeeds, there is memory for the blocks and the candidate at
index k is the first one that does not bind, `add_source_ip` returns -1, the list it leaves is the initial list followed
by the candidates 0..k (the failing one included), and `bind` was called for exactly these
candidates, in order: none after index k is appended or probed. -/
theorem add_source_ip_first_failure (env : Env) (a : addresses) (optarg : String)
    (w : World) (k : Nat) (hwf : well_formed a)
    (hok : (source_resolution env optarg).1 = 0)
    (hk : k < (source_resolution env optarg).2.length)
    (hrec : ∀ r ∈ (source_resolution env optarg).2.take (k + 1),
      inet_record r ∧ socket_available env w r.sa_family)
    (halloc : allocates env a.n_addrs (a.n_addrs + (k + 1)))
    (hpass : ∀ r ∈ (source_resolution env optarg).2.take k, bind_succeeds env r)
    (hfail : ¬ bind_succeeds env (source_resolution env optarg).2[k]) :
    ∃ a' w', add_source_ip env a optarg w = .returned (-1, a', w') ∧
      a'.n_addrs = a.n_addrs + (k + 1) ∧
      elements a' = elements a ++ (source_resolution env optarg).2.take (k + 1) ∧
      w'.binds = w.binds ++ (source_resolution env optarg).2.take (k + 1) ∧
      w'.open_fds = w.open_fds := by
  have hsplit : (source_resolution env optarg).2 =
      (source_resolution env optarg).2.take k ++
        (source_resolution env optarg).2[k] :: (source_resolution env optarg).2.drop (k + 1) := by
    rw [← List.drop_eq_getElem_cons hk, List.take_append_drop]
  have htake : (source_resolution env optarg).2.take (k + 1) =
      (source_resolution env optarg).2.take k ++ [(source_resolution env optarg).2[k]] := by
    rw [List.take_succ, List.getElem?_eq_getElem hk]
    rfl
  have hlen : ((source_resolution env optarg).2.take k).length = k := by
    rw [List.length_take]
    omega
  rw [htake] at hrec
  obtain ⟨a', w', e1, _, e3, e4, e5, e6⟩ :=
    add_source_ip_loop_fail env _ _ ((source_resolution env optarg).2.drop (k + 1)) a w hwf
      hrec (by rw [hlen]; exact halloc) hpass hfail
  refine ⟨a', w', ?_, ?_, ?_, ?_, e5⟩
  · unfold add_source_ip
    unfold source_resolution at hok
    rw [if_neg (by rw [hok]; simp)]
    rw [← hsplit] at e1
    exact e1
  · rw [e3, hlen]
  · rw [e4, htake]
  · rw [e6, htake]

theorem add_source_ip_first_failure_witness :
    ∃ a' w', add_source_ip host no_addresses "mixed.example" boot = .returned (-1, a', w') ∧
      a'.n_addrs = 2 ∧ elements a' = [loopback4 0, foreign4 0] ∧
      w'.binds = [loopback4 0, foreign4 0] ∧ w'.open_fds = [0, 1, 2] :=
  (add_source_ip_first_failure host no_addresses "mixed.example" boot 1
    (by decide) (by decide) (by decide) (by decide) (host_allocates _ _ (by decide))
    (by decide) (by decide)).elim
    (fun a' h => h.elim (fun w' h => ⟨a', w', h.1, h.2.1, h.2.2.1.trans (by decide),
      h.2.2.2.1.trans (by decide), h.2.2.2.2⟩))

/-- C4: when there is memory for the blocks, `add_source_ip` returns 0 exactly when the
resolution query succeeds and every candidate passes the bind probe (a probe socket is
created and the bind to the candidate succeeds); it then leaves the initial list followed
by all candidates in resolution order. Whatever it returns is 0 or -1, and it returns -1
when the host resolves to candidates of which none binds. (The candidates are whole IPv4 or
IPv6 socket addresses.) -/
theorem add_source_ip_accepts_only_bindable (env : Env) (a : addresses) (optarg : String)
    (w : World) (hwf : well_formed a)
    (hrec : (source_resolution env optarg).1 = 0 →
      ∀ r ∈ (source_resolution env optarg).2, inet_record r)
    (halloc : (source_resolution env optarg).1 = 0 →
      allocates env a.n_addrs (a.n_addrs + (source_resolution env optarg).2.length)) :
    ((∃ a' w', add_source_ip env a optarg w = .returned (0, a', w')) ↔
      (source_resolution env optarg).1 = 0 ∧
        ∀ r ∈ (source_resolution env optarg).2, passes_probe env w r) ∧
    (∀ rc a' w', add_source_ip env a optarg w = .returned (rc, a', w') →
      (rc = 0 ∨ rc = -1) ∧
      (rc = 0 → a'.n_addrs = a.n_addrs + (source_resolution env optarg).2.length ∧
        elements a' = elements a ++ (source_resolution env optarg).2)) ∧
    ((source_resolution env optarg).1 = 0 → (source_resolution env optarg).2 ≠ [] →
      (∀ r ∈ (source_resolution env optarg).2,
        socket_available env w r.sa_family ∧ ¬ bind_succeeds env r) →
      ∃ a' w', add_source_ip env a optarg w = .returned (-1, a', w')) := by
  by_cases hok : (source_resolution env optarg).1 = 0
  · have hadd : add_source_ip env a optarg w =
        add_source_ip_loop env (source_resolution env optarg).2 a w := by
      unfold add_source_ip
      unfold source_resolution at hok
      rw [if_neg (by rw [hok]; simp)]
      rfl
    rw [hadd]
    have hzero : ∀ a' w', add_source_ip_loop env (source_resolution env optarg).2 a w =
        .returned (0, a', w') →
        ∀ r ∈ (source_resolution env optarg).2, passes_probe env w r :=
      fun a' w' h => add_source_ip_loop_zero env _ a w a' w' hwf (hrec hok) (halloc hok) h
    refine ⟨⟨fun ⟨a', w', h⟩ => ⟨hok, hzero a' w' h⟩, fun ⟨_, hall⟩ => ?_⟩, ?_, ?_⟩
    · obtain ⟨a', w', e1, _⟩ := add_source_ip_loop_pass env _ a w hwf (hrec hok)
        (halloc hok) (fun r hr => (hall r hr).1) (fun r hr => (hall r hr).2)
      exact ⟨a', w', e1⟩
    · intro rc a' w' h
      refine ⟨add_source_ip_loop_status env _ a w rc a' w' h, fun hrc => ?_⟩
      rw [hrc] at h
      have hall := hzero a' w' h
      obtain ⟨a2, w2, e1, _, e3, e4, _, _⟩ := add_source_ip_loop_pass env _ a w hwf
        (hrec hok) (halloc hok) (fun r hr => (hall r hr).1) (fun r hr => (hall r hr).2)
      rw [e1] at h
      cases h
      exact ⟨e3, e4⟩
    · intro _ hne hnone
      cases hl : (source_resolution env optarg).2 with
      | nil => exact absurd hl hne
      | cons c post =>
        have hc : c ∈ (source_resolution env optarg).2 := by
          rw [hl]
          exact List.mem_cons_self _ _
        obtain ⟨a', w', e1, _⟩ := add_source_ip_loop_fail env [] c post a w hwf
          (fun r hr => by
            rw [List.nil_append, List.mem_singleton] at hr
            rw [hr]
            exact ⟨hrec hok c hc, (hnone c hc).1⟩)
          (fun l k h1 h2 => halloc hok l k h1 (by
            rw [hl, List.length_cons]
            simp only [List.length_nil] at h2
            omega))
          (fun r hr => absurd hr (List.not_mem_nil r)) (hnone c hc).2
        exact ⟨a', w', e1⟩
  · have hadd : add_source_ip env a optarg w = .returned (-1, a, fprintf w stderr
        ("getaddrinfo: " ++ env.gai_strerror (source_resolution env optarg).1 ++ "\n")) := by
      unfold add_source_ip
      unfold source_resolution at hok
      rw [if_pos hok]
      rfl
    rw [hadd]
    refine ⟨⟨fun ⟨a', w', h⟩ => ?_, fun h => absurd h.1 hok⟩, ?_, fun h => absurd h hok⟩
    · cases h
    · intro rc a' w' h
      cases h
      exact ⟨Or.inr rfl, fun h0 => absurd h0 (by decide)⟩

theorem add_source_ip_accepts_only_bindable_witness :
    well_formed no_addresses ∧
    (∃ a' w', add_source_ip host no_addresses "localhost" boot = .returned (0, a', w') ∧
      elements a' = [loopback4 0, loopback6 0]) ∧
    (∃ a' w', add_source_ip host no_addresses "192.0.2.1" boot = .returned (-1, a', w')) := by
  refine ⟨by decide, ?_, ?_⟩
  · have h := add_source_ip_accepts_only_bindable host no_addresses "localhost" boot
      (by decide) (fun _ => by decide) (fun _ => host_allocates _ _ (by decide))
    obtain ⟨a', w', e⟩ := h.1.mpr ⟨by decide, by decide⟩
    exact ⟨a', w', e, ((h.2.1 0 a' w' e).2 rfl).2.trans (by decide)⟩
  · exact (add_source_ip_accepts_only_bindable host no_addresses "192.0.2.1" boot
      (by decide) (fun _ => by decide) (fun _ => host_allocates _ _ (by decide))).2.2
      (by decide) (by decide) (by decide)

/-- C8: whenever `check_if_bindable_ip` returns, it returns 0 if the bind of the probe
socket to the address succeeded and -1 if not, and the open descriptors of the process are
the ones open before the call: the probe socket was closed on both outcomes. For an address
of family IPv4 or IPv6 for which a stream socket can be created, it does return. -/
theorem check_if_bindable_ip_spec (env : Env) (ss : sockaddr_storage) (w : World) :
    (∀ rc w', check_if_bindable_ip env ss w = .returned (rc, w') →
      (rc = 0 ↔ (sys_bind env (sys_socket env w ss.sa_family).2
        (sys_socket env w ss.sa_family).1 ss (env.sockaddr_len ss)).1 = 0) ∧
      (rc = 0 ∨ rc = -1) ∧ w'.open_fds = w.open_fds) ∧
    (inet_family ss → socket_available env w ss.sa_family →
      ∃ rc w', check_if_bindable_ip env ss w = .returned (rc, w') ∧
        (sys_socket env w ss.sa_family).2.open_fds =
          (env.socket w.open_fds ss.sa_family).toNat :: w.open_fds ∧
        (rc = 0 ↔ bind_succeeds env ss)) := by
  refine ⟨fun rc w' h => check_if_bindable_ip_returned env ss w rc w' h, ?_⟩
  intro hfam hsock
  obtain ⟨w', h1, _, _⟩ := check_if_bindable_ip_opened env ss w hfam hsock
  refine ⟨_, w', h1, ?_, ?_⟩
  · unfold socket_available at hsock
    simp [sys_socket, hsock]
  · by_cases hb : bind_succeeds env ss
    · simp [hb]
    · simp [hb]

theorem check_if_bindable_ip_spec_witness :
    (inet_family (loopback4 0) ∧ socket_available host boot (loopback4 0).sa_family) ∧
    (∃ rc w', check_if_bindable_ip host (loopback4 0) boot = .returned (rc, w') ∧
      rc = 0 ∧ w'.open_fds = [0, 1, 2]) ∧
    (∃ rc w', check_if_bindable_ip host (foreign4 0) boot = .returned (rc, w') ∧
      rc = -1 ∧ w'.open_fds = [0, 1, 2]) := by
  refine ⟨⟨by decide, by decide⟩, ?_, ?_⟩
  · obtain ⟨rc, w', h1, _, h3⟩ :=
      (check_if_bindable_ip_spec host (loopback4 0) boot).2 (by decide) (by decide)
    exact ⟨rc, w', h1, h3.mpr (by decide),
      ((check_if_bindable_ip_spec host (loopback4 0) boot).1 rc w' h1).2.2⟩
  · obtain ⟨rc, w', h1, _, h3⟩ :=
      (check_if_bindable_ip_spec host (foreign4 0) boot).2 (by decide) (by decide)
    have h4 := (check_if_bindable_ip_spec host (foreign4 0) boot).1 rc w' h1
    have h5 : rc ≠ 0 := fun e => absurd (h3.mp e) (by decide)
    exact ⟨rc, w', h1, h4.2.1.resolve_left h5, h4.2.2⟩

/-- C10, as the code has it: for an address of family IPv4 or IPv6, `check_if_bindable_ip`
returns 0 or -1 whenever the probe socket can be created, and also when it cannot in a
build with `NDEBUG`, the result then being -1; when the socket cannot be created in a build
with assertions, `assert(lsock != -1)` aborts the process and nothing is returned. -/
theorem check_if_bindable_ip_returns_or_aborts (env : Env) (ss : sockaddr_storage)
    (w : World) (hfam : inet_family ss) :
    (socket_available env w ss.sa_family ∨ env.ndebug = true →
      ∃ rc w', check_if_bindable_ip env ss w = .returned (rc, w') ∧ (rc = 0 ∨ rc = -1) ∧
        (¬ socket_available env w ss.sa_family → rc = -1)) ∧
    (¬ socket_available env w ss.sa_family → env.ndebug = false →
      check_if_bindable_ip env ss w = .aborted) := by
  constructor
  · intro h
    by_cases hsock : socket_available env w ss.sa_family
    · obtain ⟨w', h1, _, _⟩ := check_if_bindable_ip_opened env ss w hfam hsock
      refine ⟨_, w', h1, ?_, fun hn => absurd hsock hn⟩
      by_cases hb : bind_succeeds env ss
      · simp [hb]
      · simp [hb]
    · have hnd : env.ndebug = true := h.resolve_left hsock
      have h1 := check_if_bindable_ip_no_socket env ss w hfam hsock
      rw [hnd, if_pos rfl] at h1
      exact ⟨-1, _, h1, Or.inr rfl, fun _ => rfl⟩
  · intro hsock hnd
    have h1 := check_if_bindable_ip_no_socket env ss w hfam hsock
    rw [hnd] at h1
    simpa using h1

theorem check_if_bindable_ip_returns_or_aborts_witness :
    inet_family (loopback4 0) ∧
    (∃ rc w', check_if_bindable_ip host (loopback4 0) boot = .returned (rc, w') ∧
      (rc = 0 ∨ rc = -1)) ∧
    (∃ rc w', check_if_bindable_ip { host_without_descriptors with ndebug := true }
      (loopback4 0) boot = .returned (rc, w') ∧ rc = -1) := by
  refine ⟨by decide, ?_, ?_⟩
  · obtain ⟨rc, w', h1, h2, _⟩ :=
      (check_if_bindable_ip_returns_or_aborts host (loopback4 0) boot (by decide)).1
        (Or.inl (by decide))
    exact ⟨rc, w', h1, h2⟩
  · obtain ⟨rc, w', h1, _, h3⟩ :=
      (check_if_bindable_ip_returns_or_aborts
        { host_without_descriptors with ndebug := true } (loopback4 0) boot (by decide)).1
        (Or.inr rfl)
    exact ⟨rc, w', h1, h3 (by decide)⟩

/-- C10 fails as stated: on a host that hands out no descriptor, a build with assertions
does not return from `check_if_bindable_ip`, it aborts at `assert(lsock != -1)`. -/
theorem check_if_bindable_ip_aborts_without_socket :
    check_if_bindable_ip host_without_descriptors (loopback4 0) boot = .aborted ∧
    ¬ ∃ rc w', check_if_bindable_ip host_without_descriptors (loopback4 0) boot =
      .returned (rc, w') := by
  have h : check_if_bindable_ip host_without_descriptors (loopback4 0) boot = .aborted := by
    decide
  refine ⟨h, ?_⟩
  rintro ⟨rc, w', h1⟩
  rw [h] at h1
  cases h1

/-! ## The family invariant -/

theorem grown_length (l : List sockaddr_storage) (k : Nat) : (grown l k).length = k := by
  simp only [grown, List.length_append, List.length_take, List.length_replicate]
  omega

theorem address_add_has_memory (env : Env) (a : addresses) (sa : sockaddr) (a' : addresses)
    (hinv : all_inet a) (hmem : env.realloc_null a.addrs (a.n_addrs + 1) = false)
    (h : address_add env a sa = .returned a') :
    all_inet a' ∧ (¬ inet_family sa → a'.n_addrs = a.n_addrs ∧ elements a' = elements a) ∧
      a.n_addrs ≤ a'.n_addrs ∧ a'.n_addrs ≤ a.n_addrs + 1 := by
  obtain ⟨hwf, hel⟩ := hinv
  by_cases hfam : inet_family sa
  · rw [address_add_inet env a sa hwf hfam hmem] at h
    cases h
    refine ⟨⟨well_formed_snoc a _ hwf, ?_⟩, fun hn => absurd hfam hn,
      Nat.le_succ _, Nat.le_refl _⟩
    rw [elements_snoc a _ hwf]
    intro ss hss
    rcases List.mem_append.mp hss with e | e
    · exact hel ss e
    · rw [List.mem_singleton] at e
      rw [e]
      unfold inet_family
      rw [stored_family]
      exact hfam
  · rw [address_add_other env a sa hfam hmem] at h
    cases hnd : env.ndebug
    · rw [hnd] at h
      cases h
    · rw [hnd, if_pos rfl] at h
      cases h
      have he : elements { addrs := grown a.addrs (a.n_addrs + 1), n_addrs := a.n_addrs } =
          elements a := by
        simp only [elements]
        exact grown_take a.addrs (a.n_addrs + 1) a.n_addrs (by omega) hwf
      refine ⟨⟨?_, ?_⟩, fun _ => ⟨rfl, he⟩, Nat.le_refl _, Nat.le_succ _⟩
      · simp only [well_formed, grown_length]
        omega
      · rw [he]
        exact hel

theorem address_add_no_memory (env : Env) (a : addresses) (sa : sockaddr) (a' : addresses)
    (hnull : env.realloc_null a.addrs (a.n_addrs + 1) = true)
    (h : address_add env a sa = .returned a') :
    env.ndebug = true ∧ a'.addrs = [] := by
  rw [address_add_null env a sa hnull] at h
  cases hnd : env.ndebug
  · rw [hnd] at h
    cases h
  · rw [hnd, if_pos rfl] at h
    by_cases hfam : inet_family sa
    · rw [if_pos hfam] at h
      cases h
    · rw [if_neg hfam] at h
      cases h
      exact ⟨rfl, rfl⟩

theorem address_add_all_inet (env : Env) (a : addresses) (sa : sockaddr) (a' : addresses)
    (hmem : env.ndebug = true → env.realloc_null a.addrs (a.n_addrs + 1) = false)
    (hinv : all_inet a) (h : address_add env a sa = .returned a') :
    all_inet a' ∧ (¬ inet_family sa → a'.n_addrs = a.n_addrs ∧ elements a' = elements a) ∧
      a.n_addrs ≤ a'.n_addrs ∧ a'.n_addrs ≤ a.n_addrs + 1 := by
  cases hnull : env.realloc_null a.addrs (a.n_addrs + 1)
  · exact address_add_has_memory env a sa a' hinv hnull h
  · have hnd := (address_add_no_memory env a sa a' hnull h).1
    rw [hmem hnd] at hnull
    cases hnull

theorem address_add_each_all_inet (env : Env) (sas : List sockaddr) :
    ∀ (a a' : addresses),
      (env.ndebug = true → allocates env a.n_addrs (a.n_addrs + sas.length)) →
      all_inet a → address_add_each env a sas = .returned a' → all_inet a' := by
  induction sas with
  | nil =>
    intro a a' _ hinv h
    simp only [address_add_each] at h
    cases h
    exact hinv
  | cons sa rest ih =>
    intro a a' hmem hinv h
    simp only [address_add_each] at h
    obtain ⟨a1, h1, h2⟩ := Outcome.bind_eq_returned h
    obtain ⟨hinv1, _, hlo, hhi⟩ := address_add_all_inet env a sa a1
      (fun hnd => hmem hnd _ _ (by omega) (by simp)) hinv h1
    refine ih a1 a' (fun hnd l k hk1 hk2 => hmem hnd l k (by omega) ?_) hinv1 h2
    simp only [List.length_cons]
    omega

theorem slot_nil (i : Nat) : slot [] i = .undefined := rfl

theorem add_source_ip_loop_all_inet (env : Env) (recs : List sockaddr) :
    ∀ (a : addresses) (w : World) (rc : Int) (a' : addresses) (w' : World), all_inet a →
      add_source_ip_loop env recs a w = .returned (rc, a', w') → all_inet a' := by
  induction recs with
  | nil =>
    intro a w rc a' w' hinv h
    simp only [add_source_ip_loop] at h
    cases h
    exact hinv
  | cons sa rest ih =>
    intro a w rc a' w' hinv h
    simp only [add_source_ip_loop] at h
    obtain ⟨a1, h1, h2⟩ := Outcome.bind_eq_returned h
    have h2' : (slot a1.addrs (a1.n_addrs - 1) >>= fun ss =>
        check_if_bindable_ip env ss w >>= fun p =>
          if p.1 < 0 then pure (-1, a1, p.2) else add_source_ip_loop env rest a1 p.2) =
        .returned (rc, a', w') := by
      by_cases hz : a1.n_addrs = 0
      · rw [if_pos hz] at h2
        cases h2
      · rw [if_neg hz] at h2
        exact h2
    have hinv1 : all_inet a1 := by
      cases hnull : env.realloc_null a.addrs (a.n_addrs + 1)
      · exact (address_add_has_memory env a sa a1 hinv hnull h1).1
      · have hempty := (address_add_no_memory env a sa a1 hnull h1).2
        rw [hempty, slot_nil] at h2'
        cases h2'
    obtain ⟨ss, _, h3⟩ := Outcome.bind_eq_returned h2'
    obtain ⟨p, _, h4⟩ := Outcome.bind_eq_returned h3
    by_cases hp : p.1 < 0
    · rw [if_pos hp] at h4
      cases h4
      exact hinv1
    · rw [if_neg hp] at h4
      exact ih a1 p.2 rc a' w' hinv1 h4

/-- C9: every element of an address list has family IPv4 or IPv6. The property holds for
the empty list; `address_add` preserves it for every input address, and an address of
another family is neither stored as an element nor counted; so it holds for every list
`detect_listen_addresses` returns and for every list `add_source_ip` leaves when it is
given a list that has it, whatever the resolver returns. (A build with `NDEBUG` goes on
after a `realloc` that fails; for `address_add` and `detect_listen_addresses` such a build
is taken with memory for the blocks.) -/
theorem all_inet_invariant :
    all_inet no_addresses ∧
    (∀ (env : Env) (a : addresses) (sa : sockaddr) (a' : addresses),
      (env.ndebug = true → env.realloc_null a.addrs (a.n_addrs + 1) = false) →
      all_inet a → address_add env a sa = .returned a' →
      all_inet a' ∧ (¬ inet_family sa → a'.n_addrs = a.n_addrs ∧ elements a' = elements a)) ∧
    (∀ (env : Env) (listen_port : Int) (w : World) (a : addresses) (w' : World),
      (env.ndebug = true → allocates env 0 (listen_resolution env listen_port).2.length) →
      detect_listen_addresses env listen_port w = .returned (a, w') → all_inet a) ∧
    (∀ (env : Env) (a : addresses) (optarg : String) (w : World) (rc : Int)
      (a' : addresses) (w' : World), all_inet a →
      add_source_ip env a optarg w = .returned (rc, a', w') → all_inet a') := by
  refine ⟨by decide, ?_, ?_, ?_⟩
  · intro env a sa a' hmem hinv h
    obtain ⟨h1, h2, _⟩ := address_add_all_inet env a sa a' hmem hinv h
    exact ⟨h1, h2⟩
  · intro env listen_port w a w' hmem h
    unfold detect_listen_addresses at h
    by_cases hok : (env.getaddrinfo none (some (snprintf 32 (toString listen_port)))
        listen_hints).1 = 0
    · simp only [hok, ne_eq, not_true_eq_false, if_false] at h
      obtain ⟨a1, h1, h2⟩ := Outcome.bind_eq_returned h
      obtain ⟨w1, _, h3⟩ := Outcome.bind_eq_returned h2
      cases h3
      refine address_add_each_all_inet env _ _ a ?_ (by decide) h1
      intro hnd
      have := hmem hnd
      simpa [listen_resolution] using this
    · simp only [ne_eq, hok, not_false_eq_true, if_true] at h
      cases h
  · intro env a optarg w rc a' w' hinv h
    unfold add_source_ip at h
    by_cases hok : (env.getaddrinfo (some optarg) none source_hints).1 = 0
    · simp only [hok, ne_eq, not_true_eq_false, if_false] at h
      exact add_source_ip_loop_all_inet env _ a w rc a' w' hinv h
    · simp only [ne_eq, hok, not_false_eq_true, if_true] at h
      cases h
      exact hinv

theorem all_inet_invariant_witness :
    all_inet { addrs := [loopback4 0, loopback6 0], n_addrs := 2 } ∧
    all_inet { addrs := [loopback4 0, uninitialised], n_addrs := 1 } :=
  ⟨(all_inet_invariant.2.1 host { addrs := [loopback4 0], n_addrs := 1 } (loopback6 0)
      { addrs := [loopback4 0, loopback6 0], n_addrs := 2 } (fun _ => by decide)
      (by decide) (by decide)).1,
   (all_inet_invariant.2.1 host_ndebug { addrs := [loopback4 0], n_addrs := 1 } unix_sockaddr
      { addrs := [loopback4 0, uninitialised], n_addrs := 1 } (fun _ => by decide)
      (by decide) (by decide)).1⟩

/-! ## What `fprint_addresses` writes, and where -/

theorem join_cons (x : String) (xs : List String) :
    String.join (x :: xs) = x ++ String.join xs := by
  rw [String.join_eq, String.join_eq]
  apply String.ext
  simp [String.data_append]

theorem stream_text_nil (f : FILE) : stream_text f [] = "" := rfl

theorem stream_text_cons (f g : FILE) (t : String) (l : List (FILE × String)) :
    stream_text f ((g, t) :: l) = (if g = f then t else "") ++ stream_text f l := by
  unfold stream_text
  by_cases h : g = f
  · simp [h, List.filter_cons, join_cons]
  · simp [h, List.filter_cons]

theorem stream_text_append (f : FILE) (l1 l2 : List (FILE × String)) :
    stream_text f (l1 ++ l2) = stream_text f l1 ++ stream_text f l2 := by
  induction l1 with
  | nil => simp [stream_text_nil]
  | cons e l1 ih =>
    obtain ⟨g, t⟩ := e
    rw [List.cons_append, stream_text_cons, stream_text_cons, ih, String.append_assoc]

theorem fprint_addresses_from_writes (env : Env) (fp : FILE) (pfx separator suffix : String)
    (a : addresses) (l : List sockaddr_storage) :
    ∀ (n : Nat) (w : World),
      (∀ k (hk : k < l.length), a.addrs[n + k]? = some l[k]) →
      (∀ ss ∈ l, inet_family ss) → n + l.length = a.n_addrs →
      fprint_addresses_from env fp pfx separator suffix a n l.length w =
        .returned { w with
          streams := (w.streams ++ fprint_writes env fp pfx separator suffix n l) } := by
  induction l with
  | nil =>
    intro n w _ _ _
    simp [fprint_addresses_from, fprint_writes]
  | cons ss rest ih =>
    intro n w hget hfam hlen
    have h0 : a.addrs[n]? = some ss := by simpa using hget 0 (by simp)
    have hrest : ∀ k (hk : k < rest.length), a.addrs[n + 1 + k]? = some rest[k] := by
      intro k hk
      have := hget (k + 1) (by simp; omega)
      simpa [Nat.add_assoc, Nat.add_comm 1 k] using this
    have hlen' : n + 1 + rest.length = a.n_addrs := by
      simp only [List.length_cons] at hlen
      omega
    simp only [List.length_cons, fprint_addresses_from, slot, h0, Outcome.returned_bind,
      format_sockaddr_inet env ss _ (hfam ss (List.mem_cons_self _ _))]
    rw [ih (n + 1) _ hrest (fun x hx => hfam x (List.mem_cons_of_mem _ hx)) hlen']
    have hlast : (n = a.n_addrs - 1) ↔ rest.isEmpty = true := by
      rw [List.isEmpty_iff_length_eq_zero]
      omega
    by_cases hr : rest.isEmpty = true
    · have hn : n = a.n_addrs - 1 := hlast.mpr hr
      rw [if_pos hn]
      by_cases hz : n = 0
      · simp [fprint_writes, fprintf, formatted, hr, hz]
      · simp [fprint_writes, fprintf, formatted, hr, hz]
    · have hn : ¬ n = a.n_addrs - 1 := fun e => hr (hlast.mp e)
      rw [if_neg hn]
      by_cases hz : n = 0
      · simp [fprint_writes, fprintf, formatted, hr, hz]
      · simp [fprint_writes, fprintf, formatted, hr, hz]

theorem stream_text_fprint_writes_tail (env : Env) (fp f : FILE)
    (pfx separator suffix : String) (l : List sockaddr_storage) :
    ∀ n, n ≠ 0 →
      stream_text f (fprint_writes env fp pfx separator suffix n l) =
        if l.isEmpty then ""
        else String.join (l.map (fun ss => (if fp = f then separator else "") ++
          (if stderr = f then formatted env ss else ""))) ++ (if fp = f then suffix else "") := by
  induction l with
  | nil =>
    intro n _
    rfl
  | cons e rest ih =>
    intro n hn
    simp only [fprint_writes, if_neg hn, stream_text_cons, stream_text_append,
      ih (n + 1) (Nat.succ_ne_zero n), List.isEmpty_cons, Bool.false_eq_true, if_false,
      List.map_cons, join_cons]
    cases rest with
    | nil =>
      simp [stream_text_cons, stream_text_nil, String.join, String.append_assoc]
    | cons r rs =>
      simp [stream_text_nil, join_cons, String.append_assoc]

theorem stream_text_fprint_writes (env : Env) (fp f : FILE) (pfx separator suffix : String)
    (l : List sockaddr_storage) :
    stream_text f (fprint_writes env fp pfx separator suffix 0 l) =
      joined (if fp = f then pfx else "") (if fp = f then separator else "")
        (if fp = f then suffix else "")
        (l.map (fun ss => if stderr = f then formatted env ss else "")) := by
  cases l with
  | nil => rfl
  | cons e rest =>
    simp only [fprint_writes, if_true, stream_text_cons, stream_text_append,
      stream_text_fprint_writes_tail env fp f pfx separator suffix rest 1 (by decide),
      List.map_cons, joined, List.map_map]
    cases rest with
    | nil =>
      simp [stream_text_cons, stream_text_nil, String.join, String.append_assoc]
    | cons r rs =>
      simp [stream_text_nil, join_cons, String.append_assoc, Function.comp_def]

theorem joined_empty (l : List String) : joined "" "" "" l = String.join l := by
  cases l with
  | nil => rfl
  | cons e rest =>
    simp only [joined, String.empty_append, String.append_empty, join_cons, List.map_id']

theorem fprint_addresses_written (env : Env) (fp : FILE) (pfx separator suffix : String)
    (a : addresses) (w : World) (h : all_inet a) :
    ∃ w', fprint_addresses env fp pfx separator suffix a w = .returned w' ∧
      (fp = stderr → written w' stderr = written w stderr ++
        joined pfx separator suffix ((elements a).map (formatted env))) ∧
      (fp ≠ stderr →
        written w' fp = written w fp ++
          joined pfx separator suffix ((elements a).map (fun _ => "")) ∧
        written w' stderr = written w stderr ++
          String.join ((elements a).map (formatted env))) := by
  have hl := elements_length a h.1
  have hget : ∀ k (hk : k < (elements a).length), a.addrs[0 + k]? = some (elements a)[k] := by
    intro k hk
    rw [Nat.zero_add, elements_getElem? a k (by omega)]
    exact List.getElem?_eq_getElem hk
  have hrun := fprint_addresses_from_writes env fp pfx separator suffix a (elements a) 0 w
    hget h.2 (by omega)
  rw [hl] at hrun
  refine ⟨_, hrun, ?_, ?_⟩
  · intro hfp
    subst hfp
    show stream_text stderr (w.streams ++ _) = stream_text stderr w.streams ++ _
    rw [stream_text_append, stream_text_fprint_writes]
    simp
  · intro hfp
    have hfp' : ¬ stderr = fp := fun e => hfp e.symm
    constructor
    · show stream_text fp (w.streams ++ _) = stream_text fp w.streams ++ _
      rw [stream_text_append, stream_text_fprint_writes]
      simp [hfp']
    · show stream_text stderr (w.streams ++ _) = stream_text stderr w.streams ++ _
      rw [stream_text_append, stream_text_fprint_writes]
      simp [hfp, joined_empty]

/-- C2 does not hold of the code: `fprint_addresses` called with the standard output as
destination writes only the opening text, the separator and the closing text there; the
formatted addresses go to the standard error stream, whatever destination the caller
passed. The text the claim describes reaches the destination only when that is the
standard error stream. -/
theorem fprint_addresses_misroutes_addresses :
    fprint_addresses host stdout "P" "," "S"
        { addrs := [loopback4 8080, loopback6 443], n_addrs := 2 } boot =
      .returned { open_fds := [0, 1, 2], errno := 0, binds := [],
                  streams := [(stdout, "P"), (stderr, "[127.0.0.1]:8080"), (stdout, ","),
                    (stderr, "[::1]:443"), (stdout, "S")] } ∧
    written { open_fds := [0, 1, 2], errno := 0, binds := [],
              streams := [(stdout, "P"), (stderr, "[127.0.0.1]:8080"), (stdout, ","),
                (stderr, "[::1]:443"), (stdout, "S")] } stdout = "P,S" ∧
    joined "P" "," "S" ["[127.0.0.1]:8080", "[::1]:443"] = "P[127.0.0.1]:8080,[::1]:443S" ∧
    (∃ w', fprint_addresses host stderr "P" "," "S"
        { addrs := [loopback4 8080, loopback6 443], n_addrs := 2 } boot = .returned w' ∧
      written w' stderr = "P[127.0.0.1]:8080,[::1]:443S") := by
  refine ⟨by decide, by decide, by decide, ?_⟩
  exact ⟨{ open_fds := [0, 1, 2], errno := 0, binds := [],
           streams := [(stderr, "P"), (stderr, "[127.0.0.1]:8080"), (stderr, ","),
             (stderr, "[::1]:443"), (stderr, "S")] }, by decide, by decide⟩

end Tcpkali
